import Mathlib

/-!
Verification of the limn UI core: the widget scene graph (`src/ui/graph.rs`),
the solver-backed `Ui` with its two-phase event dispatch (`src/ui.rs`), and the
widget/handler abstraction (`src/widget/mod.rs`).

The Rust code is embedded shallowly:

* `HashMap<WidgetId, NodeIndex>` becomes an association list with
  insert-replaces semantics (`lookupM`, `mapInsert`, `mapErase`).
* petgraph's `StableGraph` becomes an association list of live nodes plus an
  edge list and a fresh-index counter; `remove_node` erases the node and its
  incident edges.
* petgraph's `Dfs` and `DfsPostOrder` visitors are modelled by recursive
  depth-first preorder and postorder traversals (`preList`, `postList`) with children
  taken in edge-insertion order, which is the order the visitors produce on the
  tree graphs this program builds (petgraph iterates neighbors newest-first and
  both visitors push them on a stack, so children are expanded oldest-first);
  the fuel argument bounds the traversal depth, which on a duplicate-free
  traversal is at most the node count.
* Rust mutation becomes state passing, and handler side effects are recorded in
  an explicit invocation log.
* Code panics (`unwrap` on `None`) become `Option` results or explicit
  `aborted` flags.

Parts of the repository referenced by these files but absent from the source
tree (the `resources` identity registry, the `event` constants, the cassowary
solver wrapper and `WidgetLayout`, and the newer-generation `Widget` stored in
`WidgetGraph`) are modelled from the spec; each such definition carries a doc
comment saying so.
-/

/-- Modelled from the spec (`util::Point` is not in the source tree): a cursor
position. All claim-relevant geometry flows through opaque hit-test
predicates, so the coordinate type only needs decidable equality; we use
integers in place of the source's `f64`. -/
structure Point where
  x : Int
  y : Int
deriving DecidableEq, Repr

/-- `resources::WidgetId`: an opaque integer handle issued by the identity
registry (`WidgetId(usize)` in the source). -/
structure WidgetId where
  num : Nat
deriving DecidableEq, Repr

/-- Modelled from the spec (the newer-generation `widget` module holding the
`Widget` stored inside `WidgetGraph` is not in the source tree): the parts of a
`WidgetContainer` that `graph.rs` reads are the widget's `id` and its hit-test
`is_mouse_over(point)` against resolved geometry; the rest of the container
(drawable, controller, properties) is opaque to the graph and omitted. -/
structure WContainer where
  id : WidgetId
  isMouseOver : Point → Bool

/-- Association-list lookup modelling `HashMap::get` on the identity map. -/
def lookupM : WidgetId → List (WidgetId × Nat) → Option Nat
  | _, [] => none
  | w, e :: m => if e.1 = w then some e.2 else lookupM w m

/-- Association-list removal modelling `HashMap::remove`. -/
def mapErase (w : WidgetId) : List (WidgetId × Nat) → List (WidgetId × Nat)
  | [] => []
  | e :: m => if e.1 = w then mapErase w m else e :: mapErase w m

/-- Association-list insertion modelling `HashMap::insert` (replaces any
existing entry for the key). -/
def mapInsert (w : WidgetId) (ix : Nat) (m : List (WidgetId × Nat)) :
    List (WidgetId × Nat) :=
  (w, ix) :: mapErase w m

/-- Lookup of a live node by internal index, modelling
`StableGraph::node_weight`. -/
def nodesLookup : Nat → List (Nat × WContainer) → Option WContainer
  | _, [] => none
  | i, e :: m => if e.1 = i then some e.2 else nodesLookup i m

/-- Removal of a live node by internal index (part of
`StableGraph::remove_node`). -/
def nodesErase (i : Nat) : List (Nat × WContainer) → List (Nat × WContainer)
  | [] => []
  | e :: m => if e.1 = i then nodesErase i m else e :: nodesErase i m

/-- Removal of every edge incident to a node (the edge half of
`StableGraph::remove_node`). -/
def edgesErase (i : Nat) : List (Nat × Nat) → List (Nat × Nat)
  | [] => []
  | e :: m => if e.1 = i ∨ e.2 = i then edgesErase i m else e :: edgesErase i m

/-- The children of node `i` in edge-insertion order: the targets of the
outgoing edges of `i` (`neighbors_directed(i, Outgoing)` walks them
newest-first; the DFS visitors consume them through a stack, restoring
insertion order — see the module comment). -/
def gChildren (edges : List (Nat × Nat)) (i : Nat) : List Nat :=
  (edges.filter (fun e => e.1 == i)).map (fun e => e.2)

/-- The sources of the incoming edges of `i` in edge-insertion order. -/
def gParents (edges : List (Nat × Nat)) (i : Nat) : List Nat :=
  (edges.filter (fun e => e.2 == i)).map (fun e => e.1)

/-- Depth-first pre-order traversal, modelling petgraph's `Dfs` visitor on the
tree graphs this program builds: visit the node, then recursively each child
in order. `fuel` bounds the depth. -/
def preList (children : Nat → List Nat) : Nat → Nat → List Nat
  | 0, _ => []
  | fuel + 1, n => n :: ((children n).map (preList children fuel)).flatten

/-- Depth-first post-order traversal, modelling petgraph's `DfsPostOrder`
visitor on the tree graphs this program builds: recursively each child in
order, then the node. `fuel` bounds the depth. -/
def postList (children : Nat → List Nat) : Nat → Nat → List Nat
  | 0, _ => []
  | fuel + 1, n => ((children n).map (postList children fuel)).flatten ++ [n]

/-- The dummy container stored in the null-sentinel node
(`Widget::new(WidgetId(0), ...)` in `WidgetGraph::new`). Its hit test is
irrelevant: the sentinel is never reachable from the root. -/
def dummyContainer : WContainer :=
  { id := ⟨0⟩, isMouseOver := fun _ => false }

/-- The state of `WidgetGraph` (`src/ui/graph.rs`): live nodes of the stable
graph keyed by internal index, the edge list, the fresh-index counter, the
identity map, the root id and the null-sentinel index. `nextId` is the
process-global identity-registry counter (modelled from the spec: the
`resources` module is not in the source tree; the registry issues fresh,
never-reused ids and we carry its counter in the state record, starting after
the sentinel's literal `WidgetId(0)`). -/
structure WidgetGraph where
  nodes : List (Nat × WContainer)
  edges : List (Nat × Nat)
  nextIndex : Nat
  widgetMap : List (WidgetId × Nat)
  rootId : WidgetId
  nullIndex : Nat
  nextId : Nat

namespace WidgetGraph

/-- `WidgetGraph::new`: a fresh graph holding only the null-sentinel node; the
root id is issued by the registry but no root node is inserted yet. -/
def new : WidgetGraph :=
  { nodes := [(0, dummyContainer)]
    edges := []
    nextIndex := 1
    widgetMap := []
    rootId := ⟨1⟩
    nullIndex := 0
    nextId := 2 }

/-- `WidgetGraph::find_widget`. -/
def findWidget (g : WidgetGraph) (wid : WidgetId) : Option Nat :=
  lookupM wid g.widgetMap

/-- `WidgetGraph::get_widget_container`: identity-map lookup, then node
lookup. -/
def getWidgetContainer (g : WidgetGraph) (wid : WidgetId) : Option WContainer :=
  match lookupM wid g.widgetMap with
  | some ix => nodesLookup ix g.nodes
  | none => none

/-- `WidgetGraph::get_widget`: as `get_widget_container`, projecting the
widget. In this embedding the container is already reduced to its
graph-visible widget fields, so the projection is the identity. -/
def getWidget (g : WidgetGraph) (wid : WidgetId) : Option WContainer :=
  match lookupM wid g.widgetMap with
  | some ix => nodesLookup ix g.nodes
  | none => none

/-- `WidgetGraph::add_widget`: insert the container at a fresh index, map its
id to that index, and if a parent id is given and resolvable add a
parent-to-child edge (an unresolvable parent id is a silent no-edge). -/
def addWidget (g : WidgetGraph) (c : WContainer) (parent : Option WidgetId) :
    WidgetGraph × Nat :=
  let ix := g.nextIndex
  let nodes := g.nodes ++ [(ix, c)]
  let widgetMap := mapInsert c.id ix g.widgetMap
  let edges :=
    match parent with
    | some pid =>
      match lookupM pid g.widgetMap with
      | some pix => g.edges ++ [(pix, ix)]
      | none => g.edges
    | none => g.edges
  ({ g with nodes := nodes, edges := edges, widgetMap := widgetMap,
            nextIndex := ix + 1 }, ix)

/-- `WidgetGraph::remove_widget`: resolve the id, clear its map entry, remove
the node (with its incident edges) and return its container. The source
clears the map entry before `remove_node`, so if the index were dead the map
entry would still be gone; that branch is unreachable in reachable states. -/
def removeWidget (g : WidgetGraph) (wid : WidgetId) :
    WidgetGraph × Option WContainer :=
  match lookupM wid g.widgetMap with
  | none => (g, none)
  | some ix =>
    let widgetMap := mapErase wid g.widgetMap
    match nodesLookup ix g.nodes with
    | some c =>
      ({ g with nodes := nodesErase ix g.nodes,
                edges := edgesErase ix g.edges,
                widgetMap := widgetMap }, some c)
    | none => ({ g with widgetMap := widgetMap }, none)

/-- The index used by the structural queries: the mapped index, or the null
sentinel for an unknown id (`widget_map.get(&id).unwrap_or(&null_index)`). -/
def indexOrNull (g : WidgetGraph) (wid : WidgetId) : Nat :=
  (lookupM wid g.widgetMap).getD g.nullIndex

/-- The id sequence produced by draining a `NeighborsWalker`: petgraph hands
back neighbors newest-edge-first, and each yielded index is resolved to the
stored widget's id (`graph[ix].widget.id`; dead indices cannot be yielded in
reachable states, and are skipped here to keep the model total). -/
def neighborIds (g : WidgetGraph) (ixs : List Nat) : List WidgetId :=
  ixs.reverse.filterMap (fun i => (nodesLookup i g.nodes).map (fun c => c.id))

/-- `WidgetGraph::parent`: first incoming neighbor of the resolved (or null)
index. -/
def parentId (g : WidgetGraph) (wid : WidgetId) : Option WidgetId :=
  (neighborIds g (gParents g.edges (indexOrNull g wid))).head?

/-- `WidgetGraph::children`, drained to a list
(`NeighborsWalker::collect`). -/
def childrenCollect (g : WidgetGraph) (wid : WidgetId) : List WidgetId :=
  neighborIds g (gChildren g.edges (indexOrNull g wid))

/-- `WidgetGraph::dfs`, drained to a list: pre-order ids from the resolved (or
null) index. -/
def dfsCollect (g : WidgetGraph) (wid : WidgetId) : List WidgetId :=
  (preList (gChildren g.edges) g.nodes.length (indexOrNull g wid)).filterMap
    (fun i => (nodesLookup i g.nodes).map (fun c => c.id))

/-- The id sequence yielded by repeatedly calling `CursorWidgetWalker::next`
over a post-order index stream: each live index whose widget's hit test
contains the point yields that widget's id. -/
def cursorCollect (g : WidgetGraph) (p : Point) (stream : List Nat) :
    List WidgetId :=
  stream.filterMap (fun i =>
    match nodesLookup i g.nodes with
    | some c => if c.isMouseOver p then some c.id else none
    | none => none)

/-- `WidgetGraph::widgets_under_cursor`, drained to a list: the cursor walker
over the post-order traversal from the root. `none` models the panic of
`root_index()` when the root id is not in the identity map. -/
def widgetsUnderCursor (g : WidgetGraph) (p : Point) :
    Option (List WidgetId) :=
  (lookupM g.rootId g.widgetMap).map (fun ri =>
    cursorCollect g p (postList (gChildren g.edges) g.nodes.length ri))

end WidgetGraph

/-- One call in a `WidgetGraph` usage sequence: add a widget (its id issued by
the identity registry, its hit test supplied by the widget author) under an
optional parent, or remove a widget by id. -/
inductive GOp where
  | add (hit : Point → Bool) (parent : Option WidgetId)
  | remove (wid : WidgetId)

/-- Run one call against the graph. An `add` builds the container with the
next registry id, as the spec's lifecycle prescribes (ids are issued by the
registry and never reused). -/
def runOp (g : WidgetGraph) : GOp → WidgetGraph
  | .add hit parent =>
    (WidgetGraph.addWidget { g with nextId := g.nextId + 1 }
      { id := ⟨g.nextId⟩, isMouseOver := hit } parent).1
  | .remove wid => (WidgetGraph.removeWidget g wid).1

/-- Run a call sequence from a fresh graph. -/
def runOps (ops : List GOp) : WidgetGraph :=
  ops.foldl runOp WidgetGraph.new

/-- The 1:1 map/node correspondence exactly as the claim states it, over every
node of the graph: each map entry points at a live node carrying that id, and
each live node's id is mapped back to its index. -/
def mapNodeBijection (g : WidgetGraph) : Prop :=
  (∀ wid ix, lookupM wid g.widgetMap = some ix →
    ∃ c, nodesLookup ix g.nodes = some c ∧ c.id = wid) ∧
  (∀ ix c, nodesLookup ix g.nodes = some c →
    lookupM c.id g.widgetMap = some ix)

/-- The well-formedness invariant of reachable `WidgetGraph` states. -/
structure GInv (g : WidgetGraph) : Prop where
  nullZero : g.nullIndex = 0
  nullLive : ∃ c, nodesLookup 0 g.nodes = some c ∧ c.id = ⟨0⟩
  nodesNodup : (g.nodes.map (fun e => e.1)).Nodup
  mapNodup : (g.widgetMap.map (fun e => e.1)).Nodup
  nodesLt : ∀ e ∈ g.nodes, e.1 < g.nextIndex
  nextIndexPos : 0 < g.nextIndex
  mapSound : ∀ wid ix, lookupM wid g.widgetMap = some ix →
    ix ≠ 0 ∧ ∃ c, nodesLookup ix g.nodes = some c ∧ c.id = wid
  nodesMapped : ∀ ix c, nodesLookup ix g.nodes = some c → ix ≠ 0 →
    lookupM c.id g.widgetMap = some ix
  edgesLive : ∀ e ∈ g.edges, e.1 ≠ 0 ∧ e.2 ≠ 0 ∧
    (nodesLookup e.1 g.nodes).isSome ∧ (nodesLookup e.2 g.nodes).isSome
  idsLt : ∀ e ∈ g.widgetMap, e.1.num < g.nextId

/-- Modelled from the spec (the `event` module is not in the source tree):
event-kind identifiers are opaque comparable tokens; we fix the four
constants `post_event` compares against as distinct naturals. Handler-returned
triggered kinds range over all naturals. -/
def MOUSE_CURSOR : Nat := 0

/-- Modelled from the spec: the raw button-press event kind. -/
def PRESS : Nat := 1

/-- Modelled from the spec: the widget-level mouse-over event kind. -/
def WIDGET_MOUSE_OVER : Nat := 2

/-- Modelled from the spec: the widget-level press event kind. -/
def WIDGET_PRESS : Nat := 3

/-- Modelled from the spec: the generic update-tick event kind. -/
def UPDATE : Nat := 4

/-- The raw input events the dispatcher consumes (pointer motion, button
press, update ticks); `update` carries the `dt` payload of `UpdateArgs`
(an `f64` in the source; the dispatcher only ever constructs `dt = 0.0`,
modelled as the integer 0). -/
inductive Event where
  | mouseCursor (p : Point)
  | press (button : Nat)
  | update (dt : Int)
deriving DecidableEq, Repr

/-- `GenericEvent::event_id` restricted to the kinds this dispatcher
distinguishes. -/
def Event.eventId : Event → Nat
  | .mouseCursor _ => MOUSE_CURSOR
  | .press _ => PRESS
  | .update _ => UPDATE

/-- An entry of `Widget::event_handlers`: the event kind the handler is
registered for (`EventHandler::event_id`), the handler's own mutable state
(`&mut self`), and its behavior `handle_event(&Event, &mut Any)`, which maps
the handler state and the widget's drawable state to their updated values plus
an optional triggered event kind. Handler state and drawable state are opaque
and modelled as naturals. -/
structure EventHandler where
  eventId : Nat
  state : Nat
  run : Nat → Event → Nat → Nat × Nat × Option Nat

/-- Modelled from the spec (cassowary is an external library and
`WidgetLayout` is not in the source tree): a layout constraint is an opaque
comparable token; we distinguish the kinds the source constructs. `eqZero`
stands for `var | EQ(STRONG) | 0.0`, `contain` for the containment constraints
`bound_by` installs between a child's and a parent's variable blocks, and
`custom` for author-supplied constraints. -/
inductive Constraint where
  | eqZero (v : Nat)
  | contain (childVars parentVars : Nat)
  | custom (n : Nat)
deriving DecidableEq, Repr

/-- The left edge variable of a widget's variable block. -/
def leftVar (v : Nat) : Nat := 4 * v

/-- The top edge variable of a widget's variable block. -/
def topVar (v : Nat) : Nat := 4 * v + 1

/-- The right edge variable of a widget's variable block. -/
def rightVar (v : Nat) : Nat := 4 * v + 2

/-- The bottom edge variable of a widget's variable block. -/
def bottomVar (v : Nat) : Nat := 4 * v + 3

/-- The older-generation `Widget` of `src/widget/mod.rs` as stored in the
`Ui` graph: opaque drawable state, the hit test (the composition of
`mouse_over_fn` with the solver-resolved bounds, collapsed to a predicate on
the cursor point since the solver is not mutated during dispatch), the
widget's variable-block identifier and constraint list (its `WidgetLayout`),
and the ordered event-handler list. -/
structure UiWidget where
  drawable : Nat
  isMouseOver : Point → Bool
  varsId : Nat
  constraints : List Constraint
  eventHandlers : List EventHandler

/-- `id_registered` from `Ui::post_event`: does the widget have a handler for
this event kind? -/
def idRegistered (w : UiWidget) (id : Nat) : Bool :=
  w.eventHandlers.any (fun h => h.eventId == id)

/-- The search-and-invoke core of `Widget::trigger_event`:
`event_handlers.iter_mut().find(|h| h.event_id() == id).unwrap()` followed by
`handle_event`. Returns the updated handler list, the updated drawable and the
triggered kind; `none` models the `unwrap` panic when no handler matches. -/
def runFirstHandler :
    List EventHandler → Nat → Event → Nat →
    Option (List EventHandler × Nat × Option Nat)
  | [], _, _, _ => none
  | h :: hs, id, e, d =>
    if h.eventId = id then
      let out := h.run h.state e d
      some ({ h with state := out.1 } :: hs, out.2.1, out.2.2)
    else
      (runFirstHandler hs id e d).map (fun r => (h :: r.1, r.2.1, r.2.2))

/-- `Widget::trigger_event`: invoke the first handler registered for `id` on
the widget's drawable; `none` models the `unwrap` panic when the widget has no
handler for `id`. -/
def triggerEvent (w : UiWidget) (id : Nat) (e : Event) :
    Option (UiWidget × Option Nat) :=
  (runFirstHandler w.eventHandlers id e w.drawable).map (fun r =>
    ({ w with eventHandlers := r.1, drawable := r.2.1 }, r.2.2))

/-- A guarded `trigger_event` call site inside `post_event`: every call there
is dominated by an `id_registered` check, so the panic branch is dead; the
model keeps the call total and raises an `aborted` flag on the (unreachable)
panic branch instead. -/
def triggerOrPanic (w : UiWidget) (id : Nat) (e : Event) :
    UiWidget × Option Nat × Bool :=
  match triggerEvent w id e with
  | some r => (r.1, r.2, false)
  | none => (w, none, true)

/-- One recorded handler invocation: the visited node, the event kind the
handler was triggered with, the payload event passed to it, and the kind it
returned. -/
structure LogEntry where
  node : Nat
  kind : Nat
  payload : Event
  ret : Option Nat
deriving DecidableEq, Repr

/-- The state threaded through `Ui::post_event`: the widget store, the
invocation log of the hit phase, the invocation log of the broadcast phase
(chronologically everything in `hitLog` happens before everything in `bLog`),
the collected `new_events` vector of `(node, triggered kind)` pairs, and the
abort flag for the dead panic branches. -/
structure PostResult where
  nodes : List UiWidget
  hitLog : List LogEntry
  bLog : List LogEntry
  collected : List (Nat × Nat)
  aborted : Bool

/-- The state of `Ui` (`src/ui.rs`): the widget graph (`Graph<Widget, ()>`
with nodes keyed by insertion position and no removal), the root index, the
Ui's own constraint vector, the solver's installed constraint set and edit
variables (cassowary modelled as the set of constraints and edit variables
handed to it), and the last-known cursor position (`InputState::mouse`).
The rendering and glyph-cache collaborators are out of scope. -/
structure Ui where
  nodes : List UiWidget
  edges : List (Nat × Nat)
  rootIndex : Nat
  constraints : List Constraint
  solverConstraints : List Constraint
  solverEditVars : List Nat
  mouse : Point

namespace Ui

/-- `Ui::new` (rendering parts omitted): the root widget alone in the graph,
its right and bottom edges registered as solver edit variables, and its left
and top pinned to zero in the Ui's constraint vector. The solver's constraint
set starts empty: `add_constraints` only runs in `init`. The root's hit test
(its resolved window rectangle composed with `point_inside_rect`) is supplied
by the caller. -/
def new (root : UiWidget) : Ui :=
  { nodes := [root]
    edges := []
    rootIndex := 0
    constraints := [.eqZero (leftVar root.varsId), .eqZero (topVar root.varsId)]
    solverConstraints := []
    solverEditVars := [rightVar root.varsId, bottomVar root.varsId]
    mouse := ⟨0, 0⟩ }

/-- `Ui::add_widget`: add the child node, add the parent-to-child edge, and
let `bound_by` install the child's containment-in-parent constraints into the
child's own constraint list (modelled from the spec, `WidgetLayout::bound_by`
being absent from the source tree: attachment appends the containment
constraint relating the two variable blocks). Valid parent indices are a
precondition in the source (petgraph panics otherwise). -/
def addWidget (ui : Ui) (parentIndex : Nat) (child : UiWidget) : Ui × Nat :=
  let childIndex := ui.nodes.length
  let nodes := ui.nodes ++ [child]
  let edges := ui.edges ++ [(parentIndex, childIndex)]
  let nodes :=
    match nodes.get? parentIndex with
    | some p =>
      nodes.set childIndex
        { child with constraints :=
            child.constraints ++ [.contain child.varsId p.varsId] }
    | none => nodes
  ({ ui with nodes := nodes, edges := edges }, childIndex)

/-- The children of a `Ui` node in edge-insertion order. -/
def children (ui : Ui) (i : Nat) : List Nat :=
  (ui.edges.filter (fun e => e.1 == i)).map (fun e => e.2)

/-- The node order of `Dfs::new(&self.graph, self.root_index)` as consumed by
`init`, `draw` and both phases of `post_event`: depth-first preorder from the
root. The order depends only on the edges, which dispatch never mutates, so
the repeated `Dfs::new` walks inside `post_event` all produce this list. -/
def order (ui : Ui) : List Nat :=
  preList ui.children ui.nodes.length ui.rootIndex

/-- The loop body of `Ui::init` for one visited node: drain the widget's
constraint list into the accumulating constraint vector (Rust `Vec::append`
moves, leaving the widget's list empty). -/
def initVisit (st : List UiWidget × List Constraint) (i : Nat) :
    List UiWidget × List Constraint :=
  match st.1.get? i with
  | some w => (st.1.set i { w with constraints := [] }, st.2 ++ w.constraints)
  | none => st

/-- `Ui::init`: walk the tree from the root, drain each visited widget's
constraint list into the Ui's constraint vector, then hand the whole vector
to `Solver::add_constraints`. -/
def init (ui : Ui) : Ui :=
  let st := ui.order.foldl initVisit (ui.nodes, ui.constraints)
  { ui with nodes := st.1, constraints := st.2,
            solverConstraints := ui.solverConstraints ++ st.2 }

end Ui

/-- The hit-phase body of `Ui::post_event` for one visited node: if the cursor
is over the widget, trigger its mouse-over handler on a `MOUSE_CURSOR` event
(return value dropped on the floor) and its press handler on a `PRESS` event,
pushing a returned kind onto `new_events`; each guarded by `id_registered`. -/
def hitVisit (mouse : Point) (e : Event) (st : PostResult) (i : Nat) :
    PostResult :=
  match st.nodes[i]? with
  | none => st
  | some w =>
    if w.isMouseOver mouse then
      let s1 :=
        if e.eventId = MOUSE_CURSOR ∧ idRegistered w WIDGET_MOUSE_OVER then
          let out := triggerOrPanic w WIDGET_MOUSE_OVER e
          (out.1,
            { st with
                hitLog := st.hitLog ++ [⟨i, WIDGET_MOUSE_OVER, e, out.2.1⟩],
                aborted := st.aborted || out.2.2 })
        else (w, st)
      let s2 :=
        if e.eventId = PRESS ∧ idRegistered s1.1 WIDGET_PRESS then
          let out := triggerOrPanic s1.1 WIDGET_PRESS e
          (out.1,
            { s1.2 with
                hitLog := s1.2.hitLog ++ [⟨i, WIDGET_PRESS, e, out.2.1⟩],
                collected := s1.2.collected ++
                  (match out.2.1 with
                   | some k => [(i, k)]
                   | none => []),
                aborted := s1.2.aborted || out.2.2 })
        else s1
      { s2.2 with nodes := s2.2.nodes.set i s2.1 }
    else st

/-- The broadcast-phase body of `Ui::post_event` for one visited node and one
collected kind: if the widget is registered for the kind, trigger it with the
synthetic zero-duration update event; the returned kind is discarded. -/
def broadcastVisit (k : Nat) (st : PostResult) (j : Nat) : PostResult :=
  match st.nodes[j]? with
  | none => st
  | some w =>
    if idRegistered w k then
      let out := triggerOrPanic w k (Event.update 0)
      { st with nodes := st.nodes.set j out.1,
                bLog := st.bLog ++ [⟨j, k, Event.update 0, out.2.1⟩],
                aborted := st.aborted || out.2.2 }
    else st

/-- `Ui::post_event`: the hit phase walks the tree once, collecting triggered
kinds into `new_events`; then for each collected entry the broadcast phase
walks the whole tree again. Only node weights change between walks, so every
walk follows `ui.order`. -/
def postEvent (ui : Ui) (e : Event) : PostResult :=
  let ord := ui.order
  let st1 := ord.foldl (hitVisit ui.mouse e) ⟨ui.nodes, [], [], [], false⟩
  st1.collected.foldl (fun st ne => ord.foldl (broadcastVisit ne.2) st) st1

/-- `Ui::handle_event`: record the cursor position of a pointer-motion event
into the input state, then dispatch. -/
def handleEvent (ui : Ui) (e : Event) : PostResult :=
  let ui :=
    match e with
    | .mouseCursor p => { ui with mouse := p }
    | _ => ui
  postEvent ui e

/-- The projection that reads the collected `new_events` entries back off the
hit-phase log: a press-kind invocation that returned a kind contributes its
`(node, kind)` pair. -/
def pressReturns (l : List LogEntry) : List (Nat × Nat) :=
  l.filterMap (fun en =>
    if en.kind = WIDGET_PRESS then en.ret.map (fun k => (en.node, k)) else none)

/-- The number of broadcast invocations delivered to node `w` with kind
`K`. -/
def logCount (l : List LogEntry) (w K : Nat) : Nat :=
  (l.filter (fun en => en.node == w && en.kind == K)).length

/-- The number of collected `new_events` entries carrying kind `K`. -/
def collectedCount (c : List (Nat × Nat)) (K : Nat) : Nat :=
  (c.filter (fun ne => ne.2 == K)).length

/-- The per-node handler registration fingerprint: which event kinds each
widget's handlers are registered for, in order. Handler invocations update
handler and drawable state but never this fingerprint. -/
def widKinds (ns : List UiWidget) : List (List Nat) :=
  ns.map (fun w => w.eventHandlers.map (fun h => h.eventId))

/-- The registered event kinds of one widget, in handler order. -/
def kindsOf (w : UiWidget) : List Nat :=
  w.eventHandlers.map (fun h => h.eventId)

/-- Whether the widget stored at index `j` is registered for kind `k`
(false for an out-of-range index). -/
def registeredAt (ns : List UiWidget) (j k : Nat) : Bool :=
  match ns[j]? with
  | some w => idRegistered w k
  | none => false

/-- The constraint list held by the widget stored at index `i` (empty for an
out-of-range index). -/
def constraintsAt (ns : List UiWidget) (i : Nat) : List Constraint :=
  match ns.get? i with
  | some w => w.constraints
  | none => []

/-- The invariant of the hit-phase fold of `post_event`, relative to the
widget store `ns0` it started from and the raw event `e`: handler
registrations never change, no panic branch has been taken, the broadcast log
is still empty, the collected `new_events` are exactly the press-handler
returns recorded so far, and every recorded invocation carries the raw event
as payload and one of the two hit-phase kinds. -/
def HitInv (ns0 : List UiWidget) (e : Event) (st : PostResult) : Prop :=
  widKinds st.nodes = widKinds ns0 ∧
  st.aborted = false ∧
  st.bLog = [] ∧
  st.collected = pressReturns st.hitLog ∧
  ∀ en ∈ st.hitLog, en.payload = e ∧
    (en.kind = WIDGET_MOUSE_OVER ∨ en.kind = WIDGET_PRESS)

/-- The invariant of the broadcast-phase folds of `post_event`, relative to
the widget store `ns0`, the hit log `hl` and the collected vector `col1`
frozen at the end of the hit phase: registrations, the hit log and the
collected vector never change, no panic branch has been taken, and every
broadcast invocation carries the synthetic zero-duration update payload and a
kind drawn from the collected vector. -/
def BInv (ns0 : List UiWidget) (col1 : List (Nat × Nat)) (hl : List LogEntry)
    (st : PostResult) : Prop :=
  widKinds st.nodes = widKinds ns0 ∧
  st.aborted = false ∧
  st.hitLog = hl ∧
  st.collected = col1 ∧
  ∀ en ∈ st.bLog, en.payload = Event.update 0 ∧ ∃ ne ∈ col1, en.kind = ne.2

/-- A handler fixture: registered for kind `k`, bumps its own state, leaves
the drawable alone and returns `ret`. -/
def mkHandler (k : Nat) (ret : Option Nat) : EventHandler :=
  { eventId := k, state := 0, run := fun s _ d => (s + 1, d, ret) }

/-- A root fixture: never hit, no handlers. -/
def exRoot : UiWidget :=
  { drawable := 0, isMouseOver := fun _ => false, varsId := 0,
    constraints := [], eventHandlers := [] }

/-- A widget fixture that is always hit and whose press handler triggers
kind 7. -/
def exPress7 : UiWidget :=
  { drawable := 0, isMouseOver := fun _ => true, varsId := 1,
    constraints := [], eventHandlers := [mkHandler WIDGET_PRESS (some 7)] }

/-- A widget fixture that is never hit but is registered for kind 7. -/
def exListen7 : UiWidget :=
  { drawable := 0, isMouseOver := fun _ => false, varsId := 2,
    constraints := [], eventHandlers := [mkHandler 7 none] }

/-- A widget fixture that is always hit and whose mouse-over handler triggers
kind 9. -/
def exOver9 : UiWidget :=
  { drawable := 0, isMouseOver := fun _ => true, varsId := 3,
    constraints := [], eventHandlers := [mkHandler WIDGET_MOUSE_OVER (some 9)] }

/-- A widget fixture that is never hit but is registered for kind 9. -/
def exListen9 : UiWidget :=
  { drawable := 0, isMouseOver := fun _ => false, varsId := 4,
    constraints := [], eventHandlers := [mkHandler 9 none] }

/-- A tree in which two distinct hit widgets both trigger kind 7 from their
press handlers while a third widget listens for kind 7. -/
def uiTwoPress : Ui :=
  { nodes := [exRoot, exPress7, exPress7, exListen7]
    edges := [(0, 1), (0, 2), (0, 3)]
    rootIndex := 0
    constraints := []
    solverConstraints := []
    solverEditVars := []
    mouse := ⟨0, 0⟩ }

/-- A tree in which exactly one hit widget triggers kind 7 from its press
handler while another widget listens for kind 7. -/
def uiOnePress : Ui :=
  { nodes := [exRoot, exPress7, exListen7]
    edges := [(0, 1), (0, 2)]
    rootIndex := 0
    constraints := []
    solverConstraints := []
    solverEditVars := []
    mouse := ⟨0, 0⟩ }

/-- A tree in which a hit widget's mouse-over handler returns kind 9 while
another widget listens for kind 9. -/
def uiOver : Ui :=
  { nodes := [exRoot, exOver9, exListen9]
    edges := [(0, 1), (0, 2)]
    rootIndex := 0
    constraints := []
    solverConstraints := []
    solverEditVars := []
    mouse := ⟨0, 0⟩ }

/-- A widget fixture carrying one author-supplied constraint, for the solver
claims. -/
def exChild42 : UiWidget :=
  { drawable := 0, isMouseOver := fun _ => true, varsId := 5,
    constraints := [Constraint.custom 42], eventHandlers := [] }

/-- A concrete `WidgetGraph` with a mapped root (index 1) and one child
(index 2), both always hit, for the cursor-walk claim. -/
def exGraph : WidgetGraph :=
  { nodes := [(0, dummyContainer),
              (1, { id := ⟨1⟩, isMouseOver := fun _ => true }),
              (2, { id := ⟨2⟩, isMouseOver := fun _ => true })]
    edges := [(1, 2)]
    nextIndex := 3
    widgetMap := [(⟨1⟩, 1), (⟨2⟩, 2)]
    rootId := ⟨1⟩
    nullIndex := 0
    nextId := 3 }

/-- The dispatch state at the end of the hit phase of `post_event`
(`new_events` collected, no broadcast yet). -/
def hitState (ui : Ui) (e : Event) : PostResult :=
  ui.order.foldl (hitVisit ui.mouse e) ⟨ui.nodes, [], [], [], false⟩

theorem lookupM_eq_none_iff (w : WidgetId) (m : List (WidgetId × Nat)) :
    lookupM w m = none ↔ ∀ e ∈ m, e.1 ≠ w := by
  induction m with
  | nil => simp [lookupM]
  | cons e m ih =>
    by_cases h : e.1 = w <;> simp [lookupM, h, ih]

theorem lookupM_mem {w : WidgetId} {m : List (WidgetId × Nat)} {ix : Nat}
    (h : lookupM w m = some ix) : (w, ix) ∈ m := by
  induction m with
  | nil => simp [lookupM] at h
  | cons e m ih =>
    by_cases he : e.1 = w
    · simp [lookupM, he] at h
      subst he h
      simp
    · simp [lookupM, he] at h
      exact List.mem_cons_of_mem _ (ih h)

theorem lookupM_isSome_iff (w : WidgetId) (m : List (WidgetId × Nat)) :
    (lookupM w m).isSome ↔ ∃ e ∈ m, e.1 = w := by
  induction m with
  | nil => simp [lookupM]
  | cons e m ih =>
    by_cases h : e.1 = w <;> simp [lookupM, h, ih]

theorem mem_mapErase {w : WidgetId} {m : List (WidgetId × Nat)} {e} :
    e ∈ mapErase w m ↔ e ∈ m ∧ e.1 ≠ w := by
  induction m with
  | nil => simp [mapErase]
  | cons x m ih =>
    by_cases h : x.1 = w <;> simp [mapErase, h, ih] <;> aesop

theorem mapErase_sublist (w : WidgetId) (m : List (WidgetId × Nat)) :
    (mapErase w m).Sublist m := by
  induction m with
  | nil => simp [mapErase]
  | cons x m ih =>
    by_cases h : x.1 = w
    · rw [mapErase, if_pos h]
      exact ih.cons x
    · rw [mapErase, if_neg h]
      exact ih.cons₂ x

theorem lookupM_mapErase_self (w : WidgetId) (m : List (WidgetId × Nat)) :
    lookupM w (mapErase w m) = none := by
  rw [lookupM_eq_none_iff]
  intro e he
  exact (mem_mapErase.mp he).2

theorem lookupM_mapErase_ne {w w' : WidgetId} (m : List (WidgetId × Nat))
    (h : w' ≠ w) : lookupM w' (mapErase w m) = lookupM w' m := by
  induction m with
  | nil => simp [mapErase]
  | cons x m ih =>
    by_cases hx : x.1 = w
    · have hx' : x.1 ≠ w' := by
        rw [hx]
        exact fun hc => h hc.symm
      rw [mapErase, if_pos hx, ih, lookupM, if_neg hx']
    · rw [mapErase, if_neg hx, lookupM, lookupM]
      by_cases hx' : x.1 = w' <;> simp [hx', ih]

theorem lookupM_mapInsert_self (w : WidgetId) (ix : Nat)
    (m : List (WidgetId × Nat)) : lookupM w (mapInsert w ix m) = some ix := by
  simp [mapInsert, lookupM]

theorem lookupM_mapInsert_ne {w w' : WidgetId} (ix : Nat)
    (m : List (WidgetId × Nat)) (h : w' ≠ w) :
    lookupM w' (mapInsert w ix m) = lookupM w' m := by
  have hne : w ≠ w' := fun hc => h hc.symm
  simp [mapInsert, lookupM, hne, lookupM_mapErase_ne m h]

theorem nodesLookup_eq_none_iff (i : Nat) (ns : List (Nat × WContainer)) :
    nodesLookup i ns = none ↔ ∀ e ∈ ns, e.1 ≠ i := by
  induction ns with
  | nil => simp [nodesLookup]
  | cons e ns ih =>
    by_cases h : e.1 = i <;> simp [nodesLookup, h, ih]

theorem nodesLookup_mem {i : Nat} {ns : List (Nat × WContainer)} {c}
    (h : nodesLookup i ns = some c) : (i, c) ∈ ns := by
  induction ns with
  | nil => simp [nodesLookup] at h
  | cons e ns ih =>
    by_cases he : e.1 = i
    · simp [nodesLookup, he] at h
      subst he h
      simp
    · simp [nodesLookup, he] at h
      exact List.mem_cons_of_mem _ (ih h)

theorem nodesLookup_isSome_iff (i : Nat) (ns : List (Nat × WContainer)) :
    (nodesLookup i ns).isSome ↔ ∃ e ∈ ns, e.1 = i := by
  induction ns with
  | nil => simp [nodesLookup]
  | cons e ns ih =>
    by_cases h : e.1 = i <;> simp [nodesLookup, h, ih]

theorem mem_nodesErase {i : Nat} {ns : List (Nat × WContainer)} {e} :
    e ∈ nodesErase i ns ↔ e ∈ ns ∧ e.1 ≠ i := by
  induction ns with
  | nil => simp [nodesErase]
  | cons x ns ih =>
    by_cases h : x.1 = i <;> simp [nodesErase, h, ih] <;> aesop

theorem nodesErase_sublist (i : Nat) (ns : List (Nat × WContainer)) :
    (nodesErase i ns).Sublist ns := by
  induction ns with
  | nil => simp [nodesErase]
  | cons x ns ih =>
    by_cases h : x.1 = i
    · rw [nodesErase, if_pos h]
      exact ih.cons x
    · rw [nodesErase, if_neg h]
      exact ih.cons₂ x

theorem nodesLookup_nodesErase_self (i : Nat) (ns : List (Nat × WContainer)) :
    nodesLookup i (nodesErase i ns) = none := by
  rw [nodesLookup_eq_none_iff]
  intro e he
  exact (mem_nodesErase.mp he).2

theorem nodesLookup_nodesErase_ne {i j : Nat} (ns : List (Nat × WContainer))
    (h : j ≠ i) : nodesLookup j (nodesErase i ns) = nodesLookup j ns := by
  induction ns with
  | nil => simp [nodesErase]
  | cons x ns ih =>
    by_cases hx : x.1 = i
    · have hx' : x.1 ≠ j := by
        rw [hx]
        exact fun hc => h hc.symm
      rw [nodesErase, if_pos hx, ih, nodesLookup, if_neg hx']
    · rw [nodesErase, if_neg hx, nodesLookup, nodesLookup]
      by_cases hx' : x.1 = j <;> simp [hx', ih]

theorem nodesLookup_append_left {i : Nat} {ns ms : List (Nat × WContainer)} {c}
    (h : nodesLookup i ns = some c) : nodesLookup i (ns ++ ms) = some c := by
  induction ns with
  | nil => simp [nodesLookup] at h
  | cons e ns ih =>
    by_cases he : e.1 = i <;> simp_all [nodesLookup, he]

theorem nodesLookup_append_right {i : Nat} {ns ms : List (Nat × WContainer)}
    (h : nodesLookup i ns = none) :
    nodesLookup i (ns ++ ms) = nodesLookup i ms := by
  induction ns with
  | nil => simp
  | cons e ns ih =>
    by_cases he : e.1 = i <;> simp_all [nodesLookup, he]

theorem mem_edgesErase {i : Nat} {es : List (Nat × Nat)} {e} :
    e ∈ edgesErase i es ↔ e ∈ es ∧ e.1 ≠ i ∧ e.2 ≠ i := by
  induction es with
  | nil => simp [edgesErase]
  | cons x es ih =>
    by_cases h : x.1 = i ∨ x.2 = i <;> simp [edgesErase, h, ih] <;> aesop

theorem ginv_new : GInv WidgetGraph.new := by
  refine ⟨rfl, ⟨dummyContainer, by simp [WidgetGraph.new, nodesLookup], rfl⟩,
    by simp [WidgetGraph.new], by simp [WidgetGraph.new],
    ?_, by simp [WidgetGraph.new], ?_, ?_, ?_, ?_⟩
  · intro e he
    simp [WidgetGraph.new] at he
    simp [WidgetGraph.new, he]
  · intro wid ix h
    simp [WidgetGraph.new, lookupM] at h
  · intro ix c h hne
    have := nodesLookup_mem h
    simp [WidgetGraph.new] at this
    exact absurd this.1 hne
  · intro e he
    simp [WidgetGraph.new] at he
  · intro e he
    simp [WidgetGraph.new] at he

theorem ginv_runOp (g : WidgetGraph) (hg : GInv g) (op : GOp) :
    GInv (runOp g op) := by
  obtain ⟨hnull0, hnulllive, hnodesnd, hmapnd, hnodeslt, hnp, hms, hnm, hel, hidl⟩ := hg
  cases op with
  | add hit parent =>
    set ix := g.nextIndex with hix
    set nid : WidgetId := ⟨g.nextId⟩ with hnid
    set c : WContainer := { id := nid, isMouseOver := hit } with hc
    set N' := g.nodes ++ [(ix, c)] with hN
    set M' := mapInsert nid ix g.widgetMap with hM
    have hixf : ∀ e ∈ g.nodes, e.1 ≠ ix := fun e he => Nat.ne_of_lt (hnodeslt e he)
    have hlookix : nodesLookup ix g.nodes = none :=
      (nodesLookup_eq_none_iff _ _).mpr hixf
    have hlookix' : nodesLookup ix N' = some c := by
      rw [hN, nodesLookup_append_right hlookix]
      simp [nodesLookup]
    have hfresh : ∀ e ∈ g.widgetMap, e.1 ≠ nid := by
      intro e he heq
      have := hidl e he
      rw [heq] at this
      simp [hnid] at this
    have hlift : ∀ j, (nodesLookup j g.nodes).isSome → (nodesLookup j N').isSome := by
      intro j hj
      rcases hj' : nodesLookup j g.nodes with _ | cc
      · rw [hj'] at hj
        simp at hj
      · rw [hN, nodesLookup_append_left hj']
        simp
    have hnulllive' : ∃ c0, nodesLookup 0 N' = some c0 ∧ c0.id = ⟨0⟩ := by
      obtain ⟨c0, h0, hid0⟩ := hnulllive
      exact ⟨c0, by rw [hN]; exact nodesLookup_append_left h0, hid0⟩
    have hnodesnd' : (N'.map (fun e => e.1)).Nodup := by
      rw [hN, List.map_append]
      refine List.Nodup.append hnodesnd (by simp) ?_
      intro x hx hx'
      simp at hx'
      subst hx'
      rcases List.mem_map.mp hx with ⟨e, he, heq⟩
      exact hixf e he heq
    have hmapnd' : (M'.map (fun e => e.1)).Nodup := by
      rw [hM, mapInsert]
      refine List.nodup_cons.mpr ⟨?_, ?_⟩
      · intro hmem
        rcases List.mem_map.mp hmem with ⟨e, he, heq⟩
        exact (mem_mapErase.mp he).2 heq
      · exact ((mapErase_sublist nid g.widgetMap).map (fun e => e.1)).nodup hmapnd
    have hlt' : ∀ e ∈ N', e.1 < ix + 1 := by
      intro e he
      rw [hN] at he
      rcases List.mem_append.mp he with he | he
      · exact Nat.lt_succ_of_lt (hnodeslt e he)
      · simp at he
        subst he
        exact Nat.lt_succ_self ix
    have hms' : ∀ wid ix', lookupM wid M' = some ix' →
        ix' ≠ 0 ∧ ∃ cc, nodesLookup ix' N' = some cc ∧ cc.id = wid := by
      intro wid ix' hl
      by_cases hw : wid = nid
      · subst hw
        rw [hM, lookupM_mapInsert_self] at hl
        cases hl
        exact ⟨Nat.ne_of_gt hnp, c, hlookix', rfl⟩
      · rw [hM, lookupM_mapInsert_ne _ _ hw] at hl
        obtain ⟨hne0, cc, hcc, hccid⟩ := hms wid ix' hl
        exact ⟨hne0, cc, by rw [hN]; exact nodesLookup_append_left hcc, hccid⟩
    have hnm' : ∀ ix' cc, nodesLookup ix' N' = some cc → ix' ≠ 0 →
        lookupM cc.id M' = some ix' := by
      intro ix' cc hl hne0
      by_cases hix' : ix' = ix
      · subst hix'
        rw [hlookix'] at hl
        cases hl
        rw [hM, lookupM_mapInsert_self]
      · rcases h' : nodesLookup ix' g.nodes with _ | c''
        · rw [hN, nodesLookup_append_right h'] at hl
          simp [nodesLookup, Ne.symm hix'] at hl
        · rw [hN, nodesLookup_append_left h'] at hl
          cases hl
          have hbase := hnm ix' cc h' hne0
          have hccne : cc.id ≠ nid := hfresh (cc.id, ix') (lookupM_mem hbase)
          rw [hM, lookupM_mapInsert_ne _ _ hccne]
          exact hbase
    have hidl' : ∀ e ∈ M', e.1.num < g.nextId + 1 := by
      intro e he
      rw [hM, mapInsert] at he
      rcases List.mem_cons.mp he with rfl | he
      · simp [hnid]
      · exact Nat.lt_succ_of_lt (hidl e (mem_mapErase.mp he).1)
    rcases parent with _ | pid
    · exact ⟨hnull0, hnulllive', hnodesnd', hmapnd', hlt', Nat.succ_pos _, hms', hnm',
        fun e he => ⟨(hel e he).1, (hel e he).2.1, hlift _ (hel e he).2.2.1,
          hlift _ (hel e he).2.2.2⟩, hidl'⟩
    · rcases hp : lookupM pid g.widgetMap with _ | pix
      · refine ⟨hnull0, hnulllive', hnodesnd', hmapnd', hlt', Nat.succ_pos _, hms', hnm', ?_, hidl'⟩
        show ∀ e ∈ (match lookupM pid g.widgetMap with
          | some pix => g.edges ++ [(pix, ix)]
          | none => g.edges), _
        rw [hp]
        exact fun e he => ⟨(hel e he).1, (hel e he).2.1, hlift _ (hel e he).2.2.1,
          hlift _ (hel e he).2.2.2⟩
      · refine ⟨hnull0, hnulllive', hnodesnd', hmapnd', hlt', Nat.succ_pos _, hms', hnm', ?_, hidl'⟩
        show ∀ e ∈ (match lookupM pid g.widgetMap with
          | some pix => g.edges ++ [(pix, ix)]
          | none => g.edges), _
        rw [hp]
        intro e he
        rcases List.mem_append.mp he with he | he
        · exact ⟨(hel e he).1, (hel e he).2.1, hlift _ (hel e he).2.2.1,
            hlift _ (hel e he).2.2.2⟩
        · simp at he
          subst he
          obtain ⟨hpne0, cp, hcp, _⟩ := hms pid pix hp
          exact ⟨hpne0, Nat.ne_of_gt hnp,
            hlift pix (Option.isSome_iff_exists.mpr ⟨cp, hcp⟩),
            Option.isSome_iff_exists.mpr ⟨c, hlookix'⟩⟩
  | remove wid =>
    rcases hl : lookupM wid g.widgetMap with _ | ix
    · simp only [runOp, WidgetGraph.removeWidget, hl]
      exact ⟨hnull0, hnulllive, hnodesnd, hmapnd, hnodeslt, hnp, hms, hnm, hel, hidl⟩
    · obtain ⟨hix0, cdel, hcdel, hcdelid⟩ := hms wid ix hl
      simp only [runOp, WidgetGraph.removeWidget, hl, hcdel]
      refine ⟨hnull0, ?_, ?_, ?_, ?_, hnp, ?_, ?_, ?_, ?_⟩
      · obtain ⟨c0, h0, hid0⟩ := hnulllive
        exact ⟨c0, by rw [nodesLookup_nodesErase_ne _ (Ne.symm hix0)]; exact h0, hid0⟩
      · exact (((nodesErase_sublist ix g.nodes).map (fun e => e.1)).nodup hnodesnd)
      · exact (((mapErase_sublist wid g.widgetMap).map (fun e => e.1)).nodup hmapnd)
      · exact fun e he => hnodeslt e (mem_nodesErase.mp he).1
      · intro w' ix' hl'
        by_cases hw : w' = wid
        · subst hw
          rw [lookupM_mapErase_self] at hl'
          cases hl'
        · rw [lookupM_mapErase_ne _ hw] at hl'
          obtain ⟨hne0, cc, hcc, hccid⟩ := hms w' ix' hl'
          have hixne : ix' ≠ ix := by
            intro hcontra
            subst hcontra
            rw [hcc] at hcdel
            cases hcdel
            exact hw (hccid ▸ hcdelid ▸ rfl)
          exact ⟨hne0, cc, by rw [nodesLookup_nodesErase_ne _ hixne]; exact hcc, hccid⟩
      · intro ix' cc hl' hne0
        have hixne : ix' ≠ ix := by
          intro hcontra
          subst hcontra
          rw [nodesLookup_nodesErase_self] at hl'
          cases hl'
        rw [nodesLookup_nodesErase_ne _ hixne] at hl'
        have hbase := hnm ix' cc hl' hne0
        have hccne : cc.id ≠ wid := by
          intro hcontra
          rw [hcontra, hl] at hbase
          cases hbase
          exact hixne rfl
        rw [lookupM_mapErase_ne _ hccne]
        exact hbase
      · intro e he
        obtain ⟨hmem, hne1, hne2⟩ := mem_edgesErase.mp he
        obtain ⟨h1, h2, h3, h4⟩ := hel e hmem
        refine ⟨h1, h2, ?_, ?_⟩
        · rw [nodesLookup_nodesErase_ne _ hne1]
          exact h3
        · rw [nodesLookup_nodesErase_ne _ hne2]
          exact h4
      · exact fun e he => hidl e (mem_mapErase.mp he).1

theorem ginv_runOps (ops : List GOp) : GInv (runOps ops) := by
  have main : ∀ (l : List GOp) (g : WidgetGraph), GInv g → GInv (l.foldl runOp g) := by
    intro l
    induction l with
    | nil => exact fun g hg => hg
    | cons op l ih => exact fun g hg => ih _ (ginv_runOp g hg op)
  exact main ops _ ginv_new

theorem gChildren_null_nil {g : WidgetGraph} (hg : GInv g)
    {es : List (Nat × Nat)} (hsub : ∀ e ∈ es, e ∈ g.edges) :
    gChildren es 0 = [] := by
  rw [gChildren]
  have hnil : es.filter (fun e => e.1 == 0) = [] := by
    rw [List.filter_eq_nil_iff]
    intro e he
    simp only [beq_iff_eq]
    exact (hg.edgesLive e (hsub e he)).1
  rw [hnil]
  rfl

theorem gParents_null_nil {g : WidgetGraph} (hg : GInv g) :
    gParents g.edges 0 = [] := by
  rw [gParents]
  have hnil : g.edges.filter (fun e => e.2 == 0) = [] := by
    rw [List.filter_eq_nil_iff]
    intro e he
    simp only [beq_iff_eq]
    exact (hg.edgesLive e he).2.1
  rw [hnil]
  rfl

/-- C1, claim as stated is false: immediately after `WidgetGraph::new` (the
empty call sequence) the null-sentinel node lives in the graph but has no
identity-map entry, so the map and the full node set are not in 1:1
correspondence. -/
theorem map_node_bijection_fails_on_sentinel : ¬ mapNodeBijection (runOps []) := by
  intro hbij
  obtain ⟨-, h2⟩ := hbij
  have hd : nodesLookup 0 (runOps []).nodes = some dummyContainer := rfl
  have := h2 0 dummyContainer hd
  simp [runOps, WidgetGraph.new, dummyContainer, lookupM] at this

/-- C1 (amended): for every sequence of `add_widget`/`remove_widget` calls
with registry-issued ids, the identity map and the set of non-sentinel live
nodes stay in 1:1 correspondence: every map entry points at a live
non-sentinel node carrying that id, every live non-sentinel node's id maps
back to exactly its index, and distinct ids never share a node. Removal
clears the map entry together with the node (the correspondence survives
every `remove_widget`). -/
theorem add_remove_map_node_correspondence (ops : List GOp) :
    (∀ wid ix, lookupM wid (runOps ops).widgetMap = some ix →
      ix ≠ (runOps ops).nullIndex ∧
      ∃ c, nodesLookup ix (runOps ops).nodes = some c ∧ c.id = wid) ∧
    (∀ ix c, nodesLookup ix (runOps ops).nodes = some c →
      ix ≠ (runOps ops).nullIndex →
      lookupM c.id (runOps ops).widgetMap = some ix) ∧
    (∀ w1 w2 ix, lookupM w1 (runOps ops).widgetMap = some ix →
      lookupM w2 (runOps ops).widgetMap = some ix → w1 = w2) := by
  have inv := ginv_runOps ops
  refine ⟨?_, ?_, ?_⟩
  · intro wid ix h
    obtain ⟨hne0, c, hc, hcid⟩ := inv.mapSound wid ix h
    exact ⟨by rw [inv.nullZero]; exact hne0, c, hc, hcid⟩
  · intro ix c h hne
    exact inv.nodesMapped ix c h (by rw [inv.nullZero] at hne; exact hne)
  · intro w1 w2 ix h1 h2
    obtain ⟨-, c1, hc1, hid1⟩ := inv.mapSound w1 ix h1
    obtain ⟨-, c2, hc2, hid2⟩ := inv.mapSound w2 ix h2
    rw [hc1] at hc2
    cases hc2
    rw [← hid1, ← hid2]

/-- Witness for C1's amended theorem at a concrete call sequence. -/
theorem add_remove_map_node_correspondence_witness :
    ∃ c, nodesLookup 1 (runOps [GOp.add (fun _ => true) none]).nodes = some c ∧
      c.id = ⟨2⟩ :=
  ((add_remove_map_node_correspondence [GOp.add (fun _ => true) none]).1
    ⟨2⟩ 1 (by decide)).2

/-- C7: lookups with a WidgetId absent from the identity map degrade to
empty or absent results without panicking: `get_widget` and
`get_widget_container` return none, `parent` returns none and `children`
yields nothing, the latter two through the edge-free null-sentinel node. The
embedding is state-passing, so the absence of mutation is structural: the
queries return values without producing a new graph. -/
theorem unknown_id_queries (ops : List GOp) (wid : WidgetId)
    (h : lookupM wid (runOps ops).widgetMap = none) :
    WidgetGraph.getWidget (runOps ops) wid = none ∧
    WidgetGraph.getWidgetContainer (runOps ops) wid = none ∧
    WidgetGraph.parentId (runOps ops) wid = none ∧
    WidgetGraph.childrenCollect (runOps ops) wid = [] := by
  have inv := ginv_runOps ops
  have hidx : WidgetGraph.indexOrNull (runOps ops) wid = 0 := by
    rw [WidgetGraph.indexOrNull, h, inv.nullZero]
    rfl
  refine ⟨?_, ?_, ?_, ?_⟩
  · rw [WidgetGraph.getWidget, h]
  · rw [WidgetGraph.getWidgetContainer, h]
  · rw [WidgetGraph.parentId, hidx, gParents_null_nil inv]
    rfl
  · rw [WidgetGraph.childrenCollect, hidx,
      gChildren_null_nil inv (fun e he => he)]
    rfl

/-- Witness for C7 at a concrete call sequence and unknown id. -/
theorem unknown_id_queries_witness :
    WidgetGraph.getWidget (runOps [GOp.add (fun _ => true) none]) ⟨99⟩ = none ∧
    WidgetGraph.getWidgetContainer (runOps [GOp.add (fun _ => true) none]) ⟨99⟩ = none ∧
    WidgetGraph.parentId (runOps [GOp.add (fun _ => true) none]) ⟨99⟩ = none ∧
    WidgetGraph.childrenCollect (runOps [GOp.add (fun _ => true) none]) ⟨99⟩ = [] :=
  unknown_id_queries [GOp.add (fun _ => true) none] ⟨99⟩ (by decide)

/-- C9: `dfs(id)` for a WidgetId absent from the identity map starts at the
null-sentinel node and therefore yields exactly one element, `WidgetId(0)`,
the id stored in the sentinel's dummy widget — not the empty sequence the
other unknown-id queries produce. -/
theorem dfs_unknown_id (ops : List GOp) (wid : WidgetId)
    (h : lookupM wid (runOps ops).widgetMap = none) :
    WidgetGraph.dfsCollect (runOps ops) wid = [⟨0⟩] := by
  have inv := ginv_runOps ops
  obtain ⟨c0, hc0, hc0id⟩ := inv.nullLive
  have hpos : 0 < (runOps ops).nodes.length :=
    List.length_pos.mpr (List.ne_nil_of_mem (nodesLookup_mem hc0))
  have hidx : WidgetGraph.indexOrNull (runOps ops) wid = 0 := by
    rw [WidgetGraph.indexOrNull, h, inv.nullZero]
    rfl
  have hch : gChildren (runOps ops).edges 0 = [] :=
    gChildren_null_nil inv (fun e he => he)
  obtain ⟨k, hk⟩ : ∃ k, (runOps ops).nodes.length = k + 1 :=
    ⟨(runOps ops).nodes.length - 1, (Nat.succ_pred_eq_of_pos hpos).symm⟩
  rw [WidgetGraph.dfsCollect, hidx, hk, preList, hch]
  simp [hc0, hc0id]

/-- Witness for C9 at a concrete call sequence and unknown id. -/
theorem dfs_unknown_id_witness :
    WidgetGraph.dfsCollect (runOps [GOp.add (fun _ => true) none]) ⟨99⟩ = [⟨0⟩] :=
  dfs_unknown_id [GOp.add (fun _ => true) none] ⟨99⟩ (by decide)

/-- C6: for a mapped WidgetId, `remove_widget` removes exactly that id's node
and clears exactly that id's map entry, returning the stored container; every
other node (children of the removed widget included) and every other map
entry is untouched, and a subsequent `children` call on the removed id
resolves to the null sentinel and yields the empty sequence instead of an
error. -/
theorem remove_widget_exact (ops : List GOp) (wid : WidgetId) (ix : Nat)
    (h : lookupM wid (runOps ops).widgetMap = some ix) :
    ∃ c, nodesLookup ix (runOps ops).nodes = some c ∧
      (WidgetGraph.removeWidget (runOps ops) wid).2 = some c ∧
      nodesLookup ix (WidgetGraph.removeWidget (runOps ops) wid).1.nodes = none ∧
      (∀ j, j ≠ ix →
        nodesLookup j (WidgetGraph.removeWidget (runOps ops) wid).1.nodes =
        nodesLookup j (runOps ops).nodes) ∧
      lookupM wid (WidgetGraph.removeWidget (runOps ops) wid).1.widgetMap = none ∧
      (∀ w', w' ≠ wid →
        lookupM w' (WidgetGraph.removeWidget (runOps ops) wid).1.widgetMap =
        lookupM w' (runOps ops).widgetMap) ∧
      WidgetGraph.childrenCollect (WidgetGraph.removeWidget (runOps ops) wid).1 wid = [] := by
  have inv := ginv_runOps ops
  obtain ⟨hix0, c, hc, hcid⟩ := inv.mapSound wid ix h
  have hrem : WidgetGraph.removeWidget (runOps ops) wid =
      ({ runOps ops with
          nodes := nodesErase ix (runOps ops).nodes,
          edges := edgesErase ix (runOps ops).edges,
          widgetMap := mapErase wid (runOps ops).widgetMap }, some c) := by
    simp [WidgetGraph.removeWidget, h, hc]
  refine ⟨c, hc, ?_, ?_, ?_, ?_, ?_, ?_⟩
  · rw [hrem]
  · rw [hrem]
    exact nodesLookup_nodesErase_self ix _
  · intro j hj
    rw [hrem]
    exact nodesLookup_nodesErase_ne _ hj
  · rw [hrem]
    exact lookupM_mapErase_self wid _
  · intro w' hw
    rw [hrem]
    exact lookupM_mapErase_ne _ hw
  · rw [hrem, WidgetGraph.childrenCollect, WidgetGraph.indexOrNull]
    simp only [lookupM_mapErase_self, Option.getD_none]
    have hnull : (runOps ops).nullIndex = 0 := inv.nullZero
    rw [hnull]
    rw [gChildren_null_nil inv (fun e he => (mem_edgesErase.mp he).1)]
    rfl

/-- Witness for C6 at a concrete call sequence. -/
theorem remove_widget_exact_witness :
    ∃ c, nodesLookup 1 (runOps [GOp.add (fun _ => true) none]).nodes = some c ∧
      (WidgetGraph.removeWidget (runOps [GOp.add (fun _ => true) none]) ⟨2⟩).2 = some c ∧
      nodesLookup 1 (WidgetGraph.removeWidget (runOps [GOp.add (fun _ => true) none]) ⟨2⟩).1.nodes = none ∧
      (∀ j, j ≠ 1 →
        nodesLookup j (WidgetGraph.removeWidget (runOps [GOp.add (fun _ => true) none]) ⟨2⟩).1.nodes =
        nodesLookup j (runOps [GOp.add (fun _ => true) none]).nodes) ∧
      lookupM ⟨2⟩ (WidgetGraph.removeWidget (runOps [GOp.add (fun _ => true) none]) ⟨2⟩).1.widgetMap = none ∧
      (∀ w', w' ≠ ⟨2⟩ →
        lookupM w' (WidgetGraph.removeWidget (runOps [GOp.add (fun _ => true) none]) ⟨2⟩).1.widgetMap =
        lookupM w' (runOps [GOp.add (fun _ => true) none]).widgetMap) ∧
      WidgetGraph.childrenCollect (WidgetGraph.removeWidget (runOps [GOp.add (fun _ => true) none]) ⟨2⟩).1 ⟨2⟩ = [] :=
  remove_widget_exact [GOp.add (fun _ => true) none] ⟨2⟩ 1 (by decide)

theorem mem_cursorCollect {g : WidgetGraph} {p : Point} {stream : List Nat}
    {wid : WidgetId} :
    wid ∈ WidgetGraph.cursorCollect g p stream ↔
    ∃ i ∈ stream, ∃ c, nodesLookup i g.nodes = some c ∧
      c.isMouseOver p = true ∧ c.id = wid := by
  rw [WidgetGraph.cursorCollect, List.mem_filterMap]
  constructor
  · rintro ⟨i, hi, hf⟩
    rcases hl : nodesLookup i g.nodes with _ | c
    · rw [hl] at hf
      have hf' : (none : Option WidgetId) = some wid := hf
      cases hf'
    · rw [hl] at hf
      have hf' : (if c.isMouseOver p = true then some c.id else none) = some wid := hf
      by_cases hhit : c.isMouseOver p = true
      · rw [if_pos hhit] at hf'
        cases hf'
        exact ⟨i, hi, c, hl, hhit, rfl⟩
      · rw [if_neg hhit] at hf'
        cases hf'
  · rintro ⟨i, hi, c, hl, hhit, rfl⟩
    refine ⟨i, hi, ?_⟩
    rw [hl]
    show (if c.isMouseOver p = true then some c.id else none) = some c.id
    rw [if_pos hhit]

/-- C5: with the root mapped and the post-order stream from the root running
over exactly the non-sentinel live nodes (the graph is a tree below the
root), `widgets_under_cursor(p)` yields the cursor walk of the depth-first
post-order traversal — the hit widgets in post-order — and a widget id is
yielded exactly when some non-sentinel live node carries it and its hit test
contains `p`; no other id is yielded. -/
theorem widgets_under_cursor_spec (g : WidgetGraph) (p : Point) (ri : Nat)
    (hroot : lookupM g.rootId g.widgetMap = some ri)
    (hperm : List.Perm (postList (gChildren g.edges) g.nodes.length ri)
      ((g.nodes.map (fun e => e.1)).filter (fun i => i != g.nullIndex))) :
    WidgetGraph.widgetsUnderCursor g p =
      some (WidgetGraph.cursorCollect g p
        (postList (gChildren g.edges) g.nodes.length ri)) ∧
    ∀ wid, wid ∈ WidgetGraph.cursorCollect g p
        (postList (gChildren g.edges) g.nodes.length ri) ↔
      ∃ i c, nodesLookup i g.nodes = some c ∧ i ≠ g.nullIndex ∧
        c.isMouseOver p = true ∧ c.id = wid := by
  constructor
  · rw [WidgetGraph.widgetsUnderCursor, hroot]
    rfl
  · intro wid
    rw [mem_cursorCollect]
    constructor
    · rintro ⟨i, hi, c, hl, hhit, hid⟩
      have hmem := hperm.mem_iff.mp hi
      have hne := (List.mem_filter.mp hmem).2
      rw [bne_iff_ne] at hne
      exact ⟨i, c, hl, hne, hhit, hid⟩
    · rintro ⟨i, c, hl, hne, hhit, hid⟩
      have hkeys : i ∈ g.nodes.map (fun e => e.1) :=
        List.mem_map.mpr ⟨(i, c), nodesLookup_mem hl, rfl⟩
      have hmem : i ∈ (g.nodes.map (fun e => e.1)).filter
          (fun i => i != g.nullIndex) :=
        List.mem_filter.mpr ⟨hkeys, bne_iff_ne.mpr hne⟩
      exact ⟨i, hperm.mem_iff.mpr hmem, c, hl, hhit, hid⟩

/-- Witness for C5 on a concrete two-widget tree. -/
theorem widgets_under_cursor_spec_witness :
    lookupM exGraph.rootId exGraph.widgetMap = some 1 ∧
    List.Perm (postList (gChildren exGraph.edges) exGraph.nodes.length 1)
      ((exGraph.nodes.map (fun e => e.1)).filter (fun i => i != exGraph.nullIndex)) ∧
    WidgetGraph.widgetsUnderCursor exGraph ⟨0, 0⟩ =
      some (WidgetGraph.cursorCollect exGraph ⟨0, 0⟩
        (postList (gChildren exGraph.edges) exGraph.nodes.length 1)) :=
  ⟨by decide, by decide,
    (widgets_under_cursor_spec exGraph ⟨0, 0⟩ 1 (by decide) (by decide)).1⟩

theorem initFold_snd (ord : List Nat) :
    ∀ (ns : List UiWidget) (cs : List Constraint), ord.Nodup →
    (ord.foldl Ui.initVisit (ns, cs)).2 =
      cs ++ (ord.map (constraintsAt ns)).flatten := by
  induction ord with
  | nil => simp
  | cons i ord ih =>
    intro ns cs hnd
    have hni := (List.nodup_cons.mp hnd).1
    have hnd' := (List.nodup_cons.mp hnd).2
    rw [List.foldl_cons]
    rcases hw : ns[i]? with _ | w
    · have hstep : Ui.initVisit (ns, cs) i = (ns, cs) := by
        simp [Ui.initVisit, hw]
      rw [hstep, ih ns cs hnd']
      simp [constraintsAt, hw]
    · have hstep : Ui.initVisit (ns, cs) i =
          (ns.set i { w with constraints := [] }, cs ++ w.constraints) := by
        simp [Ui.initVisit, hw]
      rw [hstep, ih _ _ hnd']
      have hmap : ord.map (constraintsAt (ns.set i { w with constraints := [] })) =
          ord.map (constraintsAt ns) := by
        apply List.map_eq_map_iff.mpr
        intro j hj
        have hji : i ≠ j := fun hc => hni (hc ▸ hj)
        simp [constraintsAt, List.getElem?_set_ne hji]
      rw [hmap]
      simp [constraintsAt, hw, List.append_assoc]

/-- C2, claim as stated is false: after `Ui::new` plus one `add_widget` the
child widget is attached (node 1, child of the root) and holds its layout
constraints — its author-supplied constraint and the containment constraint
`bound_by` installed — yet the solver's constraint set is still empty: no
constraint participates in the solver before `init` runs. -/
theorem constraints_absent_after_attach :
    Constraint.custom 42 ∈
      constraintsAt (((Ui.new exRoot).addWidget 0 exChild42).1).nodes 1 ∧
    (0, 1) ∈ (((Ui.new exRoot).addWidget 0 exChild42).1).edges ∧
    (((Ui.new exRoot).addWidget 0 exChild42).1).solverConstraints = [] := by
  decide

/-- C2 (amended): a widget's layout constraints enter the solver's constraint
set only when `init` runs: `init` drains the constraint lists of exactly the
widgets its root walk visits, appends them (after the Ui's own root
constraints) to the constraint vector and hands the whole vector to the
solver, so after `init` the solver set is the previous solver set, the Ui's
constraint vector, and the visited widgets' constraints in walk order —
attaching via `add_widget` alone installs nothing into the solver
(`constraints_absent_after_attach`), widgets outside the root walk contribute
nothing, and `remove_widget` never touches the solver (the graph generation
holding `remove_widget` has no solver access at all). -/
theorem init_installs_constraints (ui : Ui) (hnd : ui.order.Nodup) :
    ui.init.solverConstraints =
      ui.solverConstraints ++ ui.constraints ++
        ((ui.order).map (constraintsAt ui.nodes)).flatten ∧
    ∀ i ∈ ui.order, ∀ c ∈ constraintsAt ui.nodes i,
      c ∈ ui.init.solverConstraints := by
  have h1 : ui.init.solverConstraints =
      ui.solverConstraints ++ (ui.order.foldl Ui.initVisit (ui.nodes, ui.constraints)).2 := by
    simp [Ui.init]
  rw [h1, initFold_snd _ _ _ hnd]
  constructor
  · rw [List.append_assoc]
  · intro i hi c hc
    have hmem : c ∈ (ui.order.map (constraintsAt ui.nodes)).flatten :=
      List.mem_flatten.mpr ⟨_, List.mem_map.mpr ⟨i, hi, rfl⟩, hc⟩
    simp [hmem]

/-- Witness for C2's amended theorem: after `init` the attached child's
author-supplied constraint does sit in the solver's constraint set. -/
theorem init_installs_constraints_witness :
    (((Ui.new exRoot).addWidget 0 exChild42).1).order.Nodup ∧
    Constraint.custom 42 ∈
      (((Ui.new exRoot).addWidget 0 exChild42).1).init.solverConstraints :=
  ⟨by decide,
    (init_installs_constraints (((Ui.new exRoot).addWidget 0 exChild42).1)
      (by decide)).2 1 (by decide) (Constraint.custom 42) (by decide)⟩

theorem set_of_getElem_self {α : Type} :
    ∀ (l : List α) (i : Nat) (a : α), l[i]? = some a → l.set i a = l
  | [], _, _, h => by simp at h
  | x :: l, 0, a, h => by
    simp at h
    simp [h, List.set]
  | x :: l, i + 1, a, h => by
    simp at h
    simp [List.set, set_of_getElem_self l i a h]

theorem foldl_pres {α β : Type} {P : β → Prop} {f : β → α → β} :
    ∀ (l : List α) (b : β), (∀ st a, a ∈ l → P st → P (f st a)) → P b →
      P (l.foldl f b)
  | [], _, _, hb => hb
  | a :: l, b, hstep, hb =>
    foldl_pres l (f b a) (fun st x hx => hstep st x (List.mem_cons_of_mem a hx))
      (hstep b a (List.mem_cons_self a l) hb)

theorem runFirstHandler_eq_none_iff (hs : List EventHandler) (id : Nat)
    (e : Event) (d : Nat) :
    runFirstHandler hs id e d = none ↔ ∀ h ∈ hs, h.eventId ≠ id := by
  induction hs with
  | nil => simp [runFirstHandler]
  | cons h hs ih =>
    by_cases hid : h.eventId = id
    · simp [runFirstHandler, hid]
    · simp [runFirstHandler, hid, ih]

theorem runFirstHandler_kinds {hs : List EventHandler} {id : Nat} {e : Event}
    {d : Nat} {r} (h : runFirstHandler hs id e d = some r) :
    r.1.map (fun h => h.eventId) = hs.map (fun h => h.eventId) := by
  induction hs generalizing r with
  | nil => simp [runFirstHandler] at h
  | cons h0 hs ih =>
    by_cases hid : h0.eventId = id
    · simp only [runFirstHandler, if_pos hid] at h
      cases h
      simp
    · simp only [runFirstHandler, if_neg hid] at h
      rcases hrec : runFirstHandler hs id e d with _ | r0
      · rw [hrec] at h
        cases h
      · rw [hrec] at h
        cases h
        simp [ih hrec]

theorem runFirstHandler_cons (h0 : EventHandler) (hs : List EventHandler)
    (id : Nat) (e : Event) (d : Nat) (hne : h0.eventId ≠ id) :
    runFirstHandler (h0 :: hs) id e d =
      (runFirstHandler hs id e d).map (fun r => (h0 :: r.1, r.2.1, r.2.2)) := by
  simp [runFirstHandler, hne]

theorem runFirstHandler_first (pre : List EventHandler) (h : EventHandler)
    (post : List EventHandler) (id : Nat) (e : Event) (d : Nat)
    (hpre : ∀ h' ∈ pre, h'.eventId ≠ id) (hh : h.eventId = id) :
    runFirstHandler (pre ++ h :: post) id e d =
      some (pre ++ { h with state := (h.run h.state e d).1 } :: post,
        (h.run h.state e d).2.1, (h.run h.state e d).2.2) := by
  induction pre with
  | nil =>
    simp only [List.nil_append, runFirstHandler, if_pos hh]
  | cons h0 pre ih =>
    have h0ne : h0.eventId ≠ id := hpre h0 (List.mem_cons_self h0 pre)
    have hpre' : ∀ h' ∈ pre, h'.eventId ≠ id :=
      fun h' hm => hpre h' (List.mem_cons_of_mem h0 hm)
    rw [List.cons_append, runFirstHandler_cons h0 _ id e d h0ne, ih hpre']
    rfl

theorem exists_first_split {hs : List EventHandler} {id : Nat}
    (hreg : ∃ h ∈ hs, h.eventId = id) :
    ∃ pre h post, hs = pre ++ h :: post ∧ h.eventId = id ∧
      ∀ h' ∈ pre, h'.eventId ≠ id := by
  induction hs with
  | nil => simp at hreg
  | cons h0 hs ih =>
    by_cases hid : h0.eventId = id
    · exact ⟨[], h0, hs, rfl, hid, by simp⟩
    · have hreg' : ∃ h ∈ hs, h.eventId = id := by
        rcases hreg with ⟨h, hm, he⟩
        rcases List.mem_cons.mp hm with rfl | hm
        · exact absurd he hid
        · exact ⟨h, hm, he⟩
      obtain ⟨pre, h, post, heq, he, hpre⟩ := ih hreg'
      refine ⟨h0 :: pre, h, post, by rw [heq]; rfl, he, ?_⟩
      intro h' hm
      rcases List.mem_cons.mp hm with rfl | hm
      · exact hid
      · exact hpre h' hm

theorem idRegistered_iff (w : UiWidget) (id : Nat) :
    idRegistered w id = true ↔ ∃ h ∈ w.eventHandlers, h.eventId = id := by
  simp [idRegistered]

theorem idRegistered_eq_false_iff (w : UiWidget) (id : Nat) :
    idRegistered w id = false ↔ ∀ h ∈ w.eventHandlers, h.eventId ≠ id := by
  simp [idRegistered]

theorem triggerEvent_eq_none_iff (w : UiWidget) (id : Nat) (e : Event) :
    triggerEvent w id e = none ↔ idRegistered w id = false := by
  constructor
  · intro h
    rcases hrf : runFirstHandler w.eventHandlers id e w.drawable with _ | r
    · rw [idRegistered_eq_false_iff]
      exact (runFirstHandler_eq_none_iff _ _ _ _).mp hrf
    · rw [triggerEvent, hrf] at h
      cases h
  · intro h
    rw [triggerEvent,
      (runFirstHandler_eq_none_iff _ _ _ _).mpr ((idRegistered_eq_false_iff _ _).mp h)]
    rfl

theorem triggerEvent_kinds {w : UiWidget} {id : Nat} {e : Event} {r}
    (h : triggerEvent w id e = some r) : kindsOf r.1 = kindsOf w := by
  rw [triggerEvent] at h
  rcases hrf : runFirstHandler w.eventHandlers id e w.drawable with _ | r0
  · rw [hrf] at h
    cases h
  · rw [hrf] at h
    cases h
    exact runFirstHandler_kinds hrf

theorem triggerOrPanic_kinds (w : UiWidget) (id : Nat) (e : Event) :
    kindsOf (triggerOrPanic w id e).1 = kindsOf w := by
  rw [triggerOrPanic]
  rcases ht : triggerEvent w id e with _ | r
  · rfl
  · exact triggerEvent_kinds ht

theorem triggerOrPanic_no_abort {w : UiWidget} {id : Nat} (e : Event)
    (hreg : idRegistered w id = true) : (triggerOrPanic w id e).2.2 = false := by
  rw [triggerOrPanic]
  rcases ht : triggerEvent w id e with _ | r
  · rw [triggerEvent_eq_none_iff] at ht
    rw [ht] at hreg
    cases hreg
  · rfl

theorem widKinds_map (ns : List UiWidget) : widKinds ns = ns.map kindsOf := rfl

theorem widKinds_set {ns : List UiWidget} {i : Nat} {w w' : UiWidget}
    (hw : ns[i]? = some w) (hk : kindsOf w' = kindsOf w) :
    widKinds (ns.set i w') = widKinds ns := by
  rw [widKinds_map, widKinds_map, List.map_set, hk]
  apply set_of_getElem_self
  rw [List.getElem?_map, hw]
  rfl

theorem any_beq_map (l : List EventHandler) (k : Nat) :
    (List.map (fun h => h.eventId) l).any (fun x => x == k) =
      l.any (fun h => h.eventId == k) := by
  induction l with
  | nil => rfl
  | cons h l ih => simp [ih]

theorem registeredAt_eq (ns : List UiWidget) (j k : Nat) :
    registeredAt ns j k =
      (match (widKinds ns)[j]? with
       | some ks => ks.any (fun x => x == k)
       | none => false) := by
  rw [registeredAt, widKinds_map]
  rcases hw : ns[j]? with _ | w
  · rw [List.getElem?_map, hw]
    rfl
  · rw [List.getElem?_map, hw]
    show idRegistered w k = (kindsOf w).any (fun x => x == k)
    exact (any_beq_map w.eventHandlers k).symm

theorem registeredAt_congr {ns ns0 : List UiWidget}
    (h : widKinds ns = widKinds ns0) (j k : Nat) :
    registeredAt ns j k = registeredAt ns0 j k := by
  rw [registeredAt_eq, registeredAt_eq, h]

theorem pressReturns_append (l l' : List LogEntry) :
    pressReturns (l ++ l') = pressReturns l ++ pressReturns l' := by
  simp [pressReturns, List.filterMap_append]

theorem pressReturns_single_over (i : Nat) (e : Event) (r : Option Nat) :
    pressReturns [⟨i, WIDGET_MOUSE_OVER, e, r⟩] = [] := by
  simp [pressReturns, WIDGET_MOUSE_OVER, WIDGET_PRESS]

theorem pressReturns_single_press (i : Nat) (e : Event) (r : Option Nat) :
    pressReturns [⟨i, WIDGET_PRESS, e, r⟩] =
      (match r with
       | some k => [(i, k)]
       | none => []) := by
  cases r <;> simp [pressReturns]

theorem mem_pressReturns {l : List LogEntry} {ne : Nat × Nat}
    (h : ne ∈ pressReturns l) :
    ∃ en ∈ l, en.kind = WIDGET_PRESS ∧ en.ret = some ne.2 ∧ en.node = ne.1 := by
  rw [pressReturns, List.mem_filterMap] at h
  obtain ⟨en, hmem, hf⟩ := h
  by_cases hk : en.kind = WIDGET_PRESS
  · rw [if_pos hk] at hf
    rcases hr : en.ret with _ | k
    · rw [hr] at hf
      cases hf
    · rw [hr] at hf
      cases hf
      exact ⟨en, hmem, hk, hr, rfl⟩
  · rw [if_neg hk] at hf
    cases hf

theorem hitVisit_inv {mouse : Point} {ns0 : List UiWidget} {e : Event}
    {st : PostResult} (hinv : HitInv ns0 e st) (i : Nat) :
    HitInv ns0 e (hitVisit mouse e st i) := by
  obtain ⟨hk, hab, hbl, hcol, hlog⟩ := hinv
  rcases hw : st.nodes[i]? with _ | w
  · simp only [hitVisit, hw]
    exact ⟨hk, hab, hbl, hcol, hlog⟩
  · simp only [hitVisit, hw]
    by_cases hhit : w.isMouseOver mouse = true
    · rw [if_pos hhit]
      by_cases hc1 : e.eventId = MOUSE_CURSOR ∧ idRegistered w WIDGET_MOUSE_OVER = true
      · rw [if_pos hc1]
        have hw1k : kindsOf (triggerOrPanic w WIDGET_MOUSE_OVER e).1 = kindsOf w :=
          triggerOrPanic_kinds w WIDGET_MOUSE_OVER e
        have hab1 : (triggerOrPanic w WIDGET_MOUSE_OVER e).2.2 = false :=
          triggerOrPanic_no_abort e hc1.2
        by_cases hc2 : e.eventId = PRESS ∧
            idRegistered (triggerOrPanic w WIDGET_MOUSE_OVER e).1 WIDGET_PRESS = true
        · rw [if_pos hc2]
          refine ⟨?_, ?_, hbl, ?_, ?_⟩
          · rw [widKinds_set hw
              ((triggerOrPanic_kinds (triggerOrPanic w WIDGET_MOUSE_OVER e).1
                WIDGET_PRESS e).trans hw1k)]
            exact hk
          · simp [hab, hab1, triggerOrPanic_no_abort e hc2.2]
          · rw [pressReturns_append, pressReturns_append, pressReturns_single_over,
              pressReturns_single_press, hcol]
            simp
          · intro en hen
            rcases List.mem_append.mp hen with hen | hen
            · rcases List.mem_append.mp hen with hen | hen
              · exact hlog en hen
              · rw [List.mem_singleton] at hen
                subst hen
                exact ⟨rfl, Or.inl rfl⟩
            · rw [List.mem_singleton] at hen
              subst hen
              exact ⟨rfl, Or.inr rfl⟩
        · rw [if_neg hc2]
          refine ⟨?_, by simp [hab, hab1], hbl, ?_, ?_⟩
          · rw [widKinds_set hw hw1k]
            exact hk
          · rw [pressReturns_append, pressReturns_single_over, hcol]
            simp
          · intro en hen
            rcases List.mem_append.mp hen with hen | hen
            · exact hlog en hen
            · rw [List.mem_singleton] at hen
              subst hen
              exact ⟨rfl, Or.inl rfl⟩
      · rw [if_neg hc1]
        by_cases hc2 : e.eventId = PRESS ∧ idRegistered w WIDGET_PRESS = true
        · rw [if_pos hc2]
          refine ⟨?_, by simp [hab, triggerOrPanic_no_abort e hc2.2], hbl, ?_, ?_⟩
          · rw [widKinds_set hw (triggerOrPanic_kinds w WIDGET_PRESS e)]
            exact hk
          · rw [pressReturns_append, pressReturns_single_press, hcol]
          · intro en hen
            rcases List.mem_append.mp hen with hen | hen
            · exact hlog en hen
            · rw [List.mem_singleton] at hen
              subst hen
              exact ⟨rfl, Or.inr rfl⟩
        · rw [if_neg hc2]
          refine ⟨?_, hab, hbl, hcol, hlog⟩
          rw [widKinds_set hw rfl]
          exact hk
    · rw [if_neg hhit]
      exact ⟨hk, hab, hbl, hcol, hlog⟩

theorem postEvent_eq_broadcast (ui : Ui) (e : Event) :
    postEvent ui e = (hitState ui e).collected.foldl
      (fun st ne => ui.order.foldl (broadcastVisit ne.2) st) (hitState ui e) := rfl

theorem hitState_inv (ui : Ui) (e : Event) : HitInv ui.nodes e (hitState ui e) :=
  foldl_pres _ _ (fun _ a _ h => hitVisit_inv h a)
    ⟨rfl, rfl, rfl, rfl, fun en hen => absurd hen (List.not_mem_nil en)⟩

theorem broadcastVisit_binv {ns0 : List UiWidget} {col1 : List (Nat × Nat)}
    {hl : List LogEntry} {k : Nat} (hkmem : ∃ ne ∈ col1, k = ne.2)
    {st : PostResult} (hinv : BInv ns0 col1 hl st) (j : Nat) :
    BInv ns0 col1 hl (broadcastVisit k st j) := by
  obtain ⟨hk, hab, hhl, hcol, hbl⟩ := hinv
  rcases hw : st.nodes[j]? with _ | w
  · simp only [broadcastVisit, hw]
    exact ⟨hk, hab, hhl, hcol, hbl⟩
  · simp only [broadcastVisit, hw]
    by_cases hreg : idRegistered w k = true
    · rw [if_pos hreg]
      refine ⟨?_, ?_, hhl, hcol, ?_⟩
      · rw [widKinds_set hw (triggerOrPanic_kinds w k (Event.update 0))]
        exact hk
      · simp [hab, triggerOrPanic_no_abort (Event.update 0) hreg]
      · intro en hen
        rcases List.mem_append.mp hen with hen | hen
        · exact hbl en hen
        · rw [List.mem_singleton] at hen
          subst hen
          exact ⟨rfl, hkmem⟩
    · rw [if_neg hreg]
      exact ⟨hk, hab, hhl, hcol, hbl⟩

theorem postEvent_binv (ui : Ui) (e : Event) :
    BInv ui.nodes (hitState ui e).collected (hitState ui e).hitLog
      (postEvent ui e) := by
  obtain ⟨hk, hab, hbl, hcol, hlog⟩ := hitState_inv ui e
  rw [postEvent_eq_broadcast]
  refine foldl_pres _ _ ?_ ⟨hk, hab, rfl, rfl, ?_⟩
  · intro st ne hne hinv
    exact foldl_pres _ _ (fun st' j _ h => broadcastVisit_binv ⟨ne, hne, rfl⟩ h j) hinv
  · rw [hbl]
    intro en hen
    cases hen

theorem logCount_append (l l' : List LogEntry) (w K : Nat) :
    logCount (l ++ l') w K = logCount l w K + logCount l' w K := by
  simp [logCount, List.filter_append]

theorem logCount_single (en : LogEntry) (w K : Nat) :
    logCount [en] w K = if en.node = w ∧ en.kind = K then 1 else 0 := by
  by_cases h1 : en.node = w
  · by_cases h2 : en.kind = K
    · simp [logCount, h1, h2]
    · simp [logCount, h1, h2]
  · simp [logCount, h1]

theorem collectedCount_cons (ne : Nat × Nat) (col : List (Nat × Nat)) (K : Nat) :
    collectedCount (ne :: col) K =
      collectedCount col K + if ne.2 = K then 1 else 0 := by
  by_cases h : ne.2 = K
  · simp [collectedCount, h]
  · simp [collectedCount, h]

theorem bRound_kinds (k : Nat) (ord : List Nat) :
    ∀ st : PostResult,
      widKinds ((ord.foldl (broadcastVisit k) st).nodes) = widKinds st.nodes := by
  induction ord with
  | nil => intro st; rfl
  | cons j ord ih =>
    intro st
    rw [List.foldl_cons, ih]
    rcases hw : st.nodes[j]? with _ | wj
    · simp only [broadcastVisit, hw]
    · simp only [broadcastVisit, hw]
      by_cases hreg : idRegistered wj k = true
      · rw [if_pos hreg]
        exact widKinds_set hw (triggerOrPanic_kinds wj k (Event.update 0))
      · rw [if_neg hreg]

theorem bRound_count (k w K : Nat) (ns0 : List UiWidget) :
    ∀ (ord : List Nat) (st : PostResult), widKinds st.nodes = widKinds ns0 →
    logCount ((ord.foldl (broadcastVisit k) st)).bLog w K =
      logCount st.bLog w K +
        (if K = k ∧ registeredAt ns0 w k = true then ord.count w else 0) := by
  intro ord
  induction ord with
  | nil =>
    intro st _
    simp
  | cons j ord ih =>
    intro st hkk
    rw [List.foldl_cons]
    rcases hw : st.nodes[j]? with _ | wj
    · have hstep : broadcastVisit k st j = st := by
        simp only [broadcastVisit, hw]
      rw [hstep, ih st hkk]
      by_cases hcond : K = k ∧ registeredAt ns0 w k = true
      · have hregw : registeredAt st.nodes w k = true := by
          rw [registeredAt_congr hkk]
          exact hcond.2
        have hjw : j ≠ w := by
          intro hjw
          subst hjw
          rw [registeredAt, hw] at hregw
          cases hregw
        rw [if_pos hcond, if_pos hcond, List.count_cons]
        simp [hjw]
      · rw [if_neg hcond, if_neg hcond]
    · by_cases hreg : idRegistered wj k = true
      · have hregst : registeredAt st.nodes j k = true := by
          rw [registeredAt, hw]
          exact hreg
        have hstep : broadcastVisit k st j =
            { st with
                nodes := st.nodes.set j (triggerOrPanic wj k (Event.update 0)).1,
                bLog := st.bLog ++
                  [⟨j, k, Event.update 0, (triggerOrPanic wj k (Event.update 0)).2.1⟩],
                aborted := st.aborted || (triggerOrPanic wj k (Event.update 0)).2.2 } := by
          simp only [broadcastVisit, hw, if_pos hreg]
        have hkk' : widKinds ((broadcastVisit k st j).nodes) = widKinds ns0 := by
          rw [hstep]
          show widKinds (st.nodes.set j (triggerOrPanic wj k (Event.update 0)).1) =
            widKinds ns0
          rw [widKinds_set hw (triggerOrPanic_kinds wj k (Event.update 0))]
          exact hkk
        rw [ih _ hkk', hstep]
        show logCount (st.bLog ++
            [⟨j, k, Event.update 0, (triggerOrPanic wj k (Event.update 0)).2.1⟩]) w K + _ = _
        rw [logCount_append, logCount_single]
        by_cases hcond : K = k ∧ registeredAt ns0 w k = true
        · rw [if_pos hcond, if_pos hcond, List.count_cons]
          by_cases hjw : j = w
          · have h1 : ((⟨j, k, Event.update 0,
                (triggerOrPanic wj k (Event.update 0)).2.1⟩ : LogEntry).node = w ∧
                (⟨j, k, Event.update 0,
                (triggerOrPanic wj k (Event.update 0)).2.1⟩ : LogEntry).kind = K) :=
              ⟨hjw, hcond.1.symm⟩
            rw [if_pos h1]
            have hb : (j == w) = true := by simp [hjw]
            rw [hb]
            simp
            omega
          · have h1 : ¬((⟨j, k, Event.update 0,
                (triggerOrPanic wj k (Event.update 0)).2.1⟩ : LogEntry).node = w ∧
                (⟨j, k, Event.update 0,
                (triggerOrPanic wj k (Event.update 0)).2.1⟩ : LogEntry).kind = K) :=
              fun hc => hjw hc.1
            rw [if_neg h1]
            have hb : (j == w) = false := by simp [hjw]
            rw [hb]
            simp
        · rw [if_neg hcond, if_neg hcond]
          have h1 : ¬((⟨j, k, Event.update 0,
              (triggerOrPanic wj k (Event.update 0)).2.1⟩ : LogEntry).node = w ∧
              (⟨j, k, Event.update 0,
              (triggerOrPanic wj k (Event.update 0)).2.1⟩ : LogEntry).kind = K) := by
            rintro ⟨hjw, hkK⟩
            apply hcond
            refine ⟨hkK.symm, ?_⟩
            rw [← hjw, ← registeredAt_congr hkk]
            exact hregst
          rw [if_neg h1]
      · have hstep : broadcastVisit k st j = st := by
          simp only [broadcastVisit, hw, if_neg hreg]
        rw [hstep, ih st hkk]
        by_cases hcond : K = k ∧ registeredAt ns0 w k = true
        · have hregw : registeredAt st.nodes w k = true := by
            rw [registeredAt_congr hkk]
            exact hcond.2
          have hjw : j ≠ w := by
            intro hjw
            subst hjw
            rw [registeredAt, hw] at hregw
            exact hreg hregw
          rw [if_pos hcond, if_pos hcond, List.count_cons]
          simp [hjw]
        · rw [if_neg hcond, if_neg hcond]

theorem bOuter_count (w K : Nat) (ns0 : List UiWidget) (ord : List Nat) :
    ∀ (col : List (Nat × Nat)) (st : PostResult),
    widKinds st.nodes = widKinds ns0 →
    registeredAt ns0 w K = true →
    logCount ((col.foldl (fun st ne => ord.foldl (broadcastVisit ne.2) st) st)).bLog w K =
      logCount st.bLog w K + collectedCount col K * ord.count w := by
  intro col
  induction col with
  | nil =>
    intro st _ _
    simp [collectedCount]
  | cons ne col ih =>
    intro st hkk hr
    rw [List.foldl_cons]
    have hkk' : widKinds ((ord.foldl (broadcastVisit ne.2) st).nodes) = widKinds ns0 := by
      rw [bRound_kinds]
      exact hkk
    rw [ih _ hkk' hr, bRound_count ne.2 w K ns0 ord st hkk, collectedCount_cons]
    by_cases hK : K = ne.2
    · have hcond : K = ne.2 ∧ registeredAt ns0 w ne.2 = true := ⟨hK, by rw [← hK]; exact hr⟩
      rw [if_pos hcond, if_pos (by rw [hK])]
      ring
    · rw [if_neg (fun hc => hK hc.1), if_neg (fun hc => hK hc.symm)]
      ring

/-- C3, claim as stated is false: in `uiTwoPress` a raw press makes two
distinct hit widgets' press handlers each return the same triggered kind 7,
and the listener at node 3 (registered for kind 7) receives two synthetic
update invocations for that one raw event, not exactly one. -/
theorem duplicate_trigger_double_broadcast :
    (∃ en ∈ (postEvent uiTwoPress (Event.press 0)).hitLog,
      en.kind = WIDGET_PRESS ∧ en.ret = some 7) ∧
    registeredAt uiTwoPress.nodes 3 7 = true ∧
    logCount (postEvent uiTwoPress (Event.press 0)).bLog 3 7 = 2 := by
  decide

/-- C3 (amended): for a tree-shaped `Ui` (duplicate-free root walk), a widget
in the tree registered for kind `K` receives exactly one synthetic
zero-duration update invocation per collected hit-phase press return of `K` —
so exactly one when exactly one press handler returned `K`, and one per
return when several did — regardless of the widget's own position or
hit-test result, and every broadcast invocation carries the zero-duration
update payload. -/
theorem broadcast_exact_fanout (ui : Ui) (e : Event) (w K : Nat) (wd : UiWidget)
    (hnd : ui.order.Nodup) (hw : w ∈ ui.order)
    (hwd : ui.nodes[w]? = some wd) (hreg : idRegistered wd K = true) :
    logCount (postEvent ui e).bLog w K =
      collectedCount (postEvent ui e).collected K ∧
    ∀ en ∈ (postEvent ui e).bLog, en.payload = Event.update 0 := by
  obtain ⟨hk1, hab1, hbl1, hcol1, hlog1⟩ := hitState_inv ui e
  obtain ⟨hk2, hab2, hhl2, hcol2, hbl2⟩ := postEvent_binv ui e
  have hregat : registeredAt ui.nodes w K = true := by
    rw [registeredAt, hwd]
    exact hreg
  have hcount : ui.order.count w = 1 := List.count_eq_one_of_mem hnd hw
  constructor
  · rw [hcol2, postEvent_eq_broadcast,
      bOuter_count w K ui.nodes ui.order (hitState ui e).collected (hitState ui e)
        hk1 hregat,
      hbl1, hcount]
    simp [logCount]
  · intro en hen
    exact (hbl2 en hen).1

/-- Witness for C3's amended theorem on the single-trigger tree. -/
theorem broadcast_exact_fanout_witness :
    uiOnePress.order.Nodup ∧ 2 ∈ uiOnePress.order ∧
    idRegistered exListen7 7 = true ∧
    logCount (postEvent uiOnePress (Event.press 0)).bLog 2 7 =
      collectedCount (postEvent uiOnePress (Event.press 0)).collected 7 :=
  ⟨by decide, by decide, by decide,
    (broadcast_exact_fanout uiOnePress (Event.press 0) 2 7 exListen7
      (by decide) (by decide) rfl (by decide)).1⟩

/-- C4, claim as stated is false: in `uiOver` a raw pointer-motion event
makes a hit widget's mouse-over handler return kind 9 — an invoked hit-phase
handler returning a new event kind — while another widget is registered for
kind 9, yet nothing is collected for the broadcast phase and no broadcast
fires: `post_event` drops mouse-over handler returns on the floor. -/
theorem mouse_over_return_discarded :
    (∃ en ∈ (postEvent uiOver (Event.mouseCursor ⟨0, 0⟩)).hitLog,
      en.ret = some 9) ∧
    registeredAt uiOver.nodes 2 9 = true ∧
    (postEvent uiOver (Event.mouseCursor ⟨0, 0⟩)).collected = [] ∧
    (postEvent uiOver (Event.mouseCursor ⟨0, 0⟩)).bLog = [] := by
  decide

/-- C4 (amended): during the hit phase exactly the kinds returned by invoked
press handlers are collected for the broadcast phase (mouse-over handler
returns are discarded), and no collected event fires before the hit phase
completes: hit-phase invocations all carry the raw event itself as payload,
while broadcast invocations — recorded strictly after the hit log — all
carry the synthetic zero-duration update event. -/
theorem hit_phase_collection (ui : Ui) (e : Event) :
    (postEvent ui e).collected = pressReturns (postEvent ui e).hitLog ∧
    (∀ en ∈ (postEvent ui e).hitLog, en.payload = e ∧
      (en.kind = WIDGET_MOUSE_OVER ∨ en.kind = WIDGET_PRESS)) ∧
    (∀ en ∈ (postEvent ui e).bLog, en.payload = Event.update 0) := by
  obtain ⟨hk1, hab1, hbl1, hcol1, hlog1⟩ := hitState_inv ui e
  obtain ⟨hk2, hab2, hhl2, hcol2, hbl2⟩ := postEvent_binv ui e
  refine ⟨?_, ?_, fun en hen => (hbl2 en hen).1⟩
  · rw [hcol2, hhl2, hcol1]
  · intro en hen
    rw [hhl2] at hen
    exact hlog1 en hen

/-- Witness for C4's amended theorem on the single-trigger tree. -/
theorem hit_phase_collection_witness :
    (⟨1, WIDGET_PRESS, Event.press 0, some 7⟩ : LogEntry) ∈
      (postEvent uiOnePress (Event.press 0)).hitLog ∧
    (⟨1, WIDGET_PRESS, Event.press 0, some 7⟩ : LogEntry).payload = Event.press 0 :=
  ⟨by decide,
    ((hit_phase_collection uiOnePress (Event.press 0)).2.1 _ (by decide)).1⟩

/-- C10: kinds returned by handlers invoked during the broadcast phase are
discarded — every broadcast invocation's kind was returned by some hit-phase
press invocation, so a triggered event never causes a further broadcast and
each raw input event causes at most one round of broadcasts. -/
theorem broadcast_no_cascade (ui : Ui) (e : Event) :
    ∀ en ∈ (postEvent ui e).bLog, ∃ h ∈ (postEvent ui e).hitLog,
      h.kind = WIDGET_PRESS ∧ h.ret = some en.kind := by
  obtain ⟨hk1, hab1, hbl1, hcol1, hlog1⟩ := hitState_inv ui e
  obtain ⟨hk2, hab2, hhl2, hcol2, hbl2⟩ := postEvent_binv ui e
  intro en hen
  obtain ⟨-, ne, hne, hkind⟩ := hbl2 en hen
  rw [hcol1] at hne
  obtain ⟨h0, hmem, hk, hr, hn⟩ := mem_pressReturns hne
  rw [hhl2]
  refine ⟨h0, hmem, hk, ?_⟩
  rw [hr, hkind]

/-- Witness for C10 on the single-trigger tree: the one broadcast invocation
of kind 7 traces back to the hit-phase press return. -/
theorem broadcast_no_cascade_witness :
    (⟨2, 7, Event.update 0, none⟩ : LogEntry) ∈
      (postEvent uiOnePress (Event.press 0)).bLog ∧
    ∃ h ∈ (postEvent uiOnePress (Event.press 0)).hitLog,
      h.kind = WIDGET_PRESS ∧
      h.ret = some (⟨2, 7, Event.update 0, none⟩ : LogEntry).kind :=
  ⟨by decide, broadcast_no_cascade uiOnePress (Event.press 0) _ (by decide)⟩

/-- C8: `Widget::trigger_event` panics (`unwrap` on `None`) exactly when the
widget has no handler registered for the kind; when a handler is registered
— the precondition `id_registered` checks before every `trigger_event` call
site inside `post_event` — the first handler whose `event_id` matches is the
one invoked, and consequently the dead panic branches inside `post_event`
are never taken (the abort flag is never raised). -/
theorem trigger_event_contract :
    (∀ (w : UiWidget) (id : Nat) (e : Event),
      triggerEvent w id e = none ↔ idRegistered w id = false) ∧
    (∀ (w : UiWidget) (id : Nat) (e : Event), idRegistered w id = true →
      ∃ pre h post, w.eventHandlers = pre ++ h :: post ∧ h.eventId = id ∧
        (∀ h' ∈ pre, h'.eventId ≠ id) ∧
        triggerEvent w id e = some
          ({ w with
              eventHandlers := pre ++
                { h with state := (h.run h.state e w.drawable).1 } :: post,
              drawable := (h.run h.state e w.drawable).2.1 },
            (h.run h.state e w.drawable).2.2)) ∧
    (∀ ui e, (postEvent ui e).aborted = false) := by
  refine ⟨triggerEvent_eq_none_iff, ?_, ?_⟩
  · intro w id e hreg
    obtain ⟨pre, h, post, heq, hid, hpre⟩ :=
      exists_first_split ((idRegistered_iff w id).mp hreg)
    refine ⟨pre, h, post, heq, hid, hpre, ?_⟩
    rw [triggerEvent, heq, runFirstHandler_first pre h post id e w.drawable hpre hid]
    rfl
  · intro ui e
    exact (postEvent_binv ui e).2.1

/-- Witness for C8: a widget without a press handler makes `trigger_event`
panic, a widget with one has it invoked, and a concrete dispatch never takes
the dead branch. -/
theorem trigger_event_contract_witness :
    triggerEvent exListen7 WIDGET_PRESS (Event.press 0) = none ∧
    (∃ r, triggerEvent exPress7 WIDGET_PRESS (Event.press 0) = some r) ∧
    (postEvent uiOnePress (Event.press 0)).aborted = false :=
  ⟨(trigger_event_contract.1 exListen7 WIDGET_PRESS (Event.press 0)).mpr (by decide),
    (trigger_event_contract.2.1 exPress7 WIDGET_PRESS (Event.press 0)
      (by decide)).elim (fun pre hrest =>
        hrest.elim (fun h hrest2 =>
          hrest2.elim (fun post hrest3 => ⟨_, hrest3.2.2.2⟩))),
    trigger_event_contract.2.2 uiOnePress (Event.press 0)⟩
